import Mathlib

/-!
AZenith daemon CLI (`jni/src/CLI.c`).

A shallow embedding of the three functions of `CLI.c` (`print_help`,
`handle_profile`, `handle_log`) together with the observable events they
produce, and theorems about them.

Conventions of the embedding.

* A C string is a Lean `String` standing for its bytes in UTF-8, without the
  terminating NUL (tokens of `argv` never contain a NUL byte).  `strlen` is
  therefore the UTF-8 byte size.
* `argc` is a C `int`, modelled by an `Int`; `argv` is the list of tokens.  A
  read of `argv[i]` beyond the list is a fault of the abstract machine.
* Every call that leaves the function (streams, property store, the
  collaborators declared in `AZenith.h`) is recorded, in program order, in a
  trace of `Event`s.  A handler yields either a fault or its return status
  together with its trace.
-/

namespace AZenith

/-! ## Data model -/

/-- Faults of the C abstract machine that the handlers can run into. -/
inductive Fault where
  /-- A read of `argv[i]` with `i` beyond the token vector. -/
  | argvOutOfBounds
  /-- A `strcat` that writes past the end of `char message[1024]`. -/
  | bufferOverflow
  /-- The iteration budget of the loop model is used up. -/
  | outOfFuel
  deriving DecidableEq, Repr

/-- Modelled from the spec: the profile enumeration of `AZenith.h` (the header is
not part of the sources).  Only the three enumerators that `CLI.c` names are
needed; their numeric values play no role. -/
inductive ProfileMode where
  | PERFORMANCE_PROFILE
  | BALANCED_PROFILE
  | ECO_MODE
  deriving DecidableEq, Repr

/-- Modelled from the spec: log level `DEBUG(0)` of `AZenith.h`. -/
def LOG_DEBUG : Int := 0

/-- Modelled from the spec: log level `INFO(1)` of `AZenith.h`. -/
def LOG_INFO : Int := 1

/-- Modelled from the spec: log level `WARN(2)` of `AZenith.h`. -/
def LOG_WARN : Int := 2

/-- Modelled from the spec: log level `ERROR(3)` of `AZenith.h`. -/
def LOG_ERROR : Int := 3

/-- Modelled from the spec: log level `FATAL(4)` of `AZenith.h`. -/
def LOG_FATAL : Int := 4

/-- Size of `char message[1024]` in `handle_log`. -/
def MESSAGE_SIZE : Nat := 1024

/-- Name of the property read by `handle_profile`. -/
def AI_PROP : String := "persist.sys.azenithconf.AIenabled"

/-- One observable action of the CLI, as seen from outside the function. -/
inductive Event where
  /-- The call `fprintf(stderr, s)`. -/
  | stderr (s : String)
  /-- The call `printf(s)`. -/
  | stdout (s : String)
  /-- The call `__system_property_get(name, buf)`. -/
  | propGet (name : String)
  /-- The call `log_zenith(level, msg)`. -/
  | logZenith (level : Int) (msg : String)
  /-- The call `toast(msg)`. -/
  | toast (msg : String)
  /-- The call `run_profiler(profile)`. -/
  | runProfiler (profile : ProfileMode)
  /-- The call `external_log(level, tag, msg)`. -/
  | externalLog (level : Int) (tag : String) (msg : String)
  deriving DecidableEq, Repr

/-- The part of the outside world a handler can observe: the property store
(`getprop name` is the string `__system_property_get` leaves in the zeroed
buffer, the empty string when the property is unset), and the status each
collaborator would report according to the interface of the spec
(`RunProfiler -> status`, `EmitLog -> status`). -/
structure Env where
  getprop : String → String
  profilerStatus : Int
  logStatus : Int

/-- Outcome of a handler: a fault, or the returned status with the trace. -/
abbrev Outcome := Except Fault (Int × List Event)

/-! ## libc -/

/-- Length of a C string in bytes. -/
def strlen (s : String) : Nat := s.utf8ByteSize

/-- Comparison loop of `strcmp`: walks both strings and stops at the first
position where they differ, or at the end of both. -/
def strcmpAux : List Char → List Char → Int
  | [], [] => 0
  | [], _ :: _ => -1
  | _ :: _, [] => 1
  | a :: as, b :: bs =>
    if a.toNat < b.toNat then -1
    else if b.toNat < a.toNat then 1
    else strcmpAux as bs

/-- Three-way comparison of C strings: negative, zero or positive as the first
string is less than, equal to or greater than the second. -/
def strcmp (a b : String) : Int := strcmpAux a.data b.data

/-- Appends `src` to the string held in a buffer of `cap` bytes.  The result
needs `strlen dst + strlen src + 1` bytes; a longer result is written past the
end of the buffer. -/
def strcat (cap : Nat) (dst src : String) : Except Fault String :=
  if strlen dst + strlen src + 1 ≤ cap then .ok (dst ++ src) else .error .bufferOverflow

/-- White space in the C locale: space, `\t`, `\n`, `\v`, `\f`, `\r`. -/
def isspace (c : Char) : Bool :=
  c.toNat = 32 ∨ (9 ≤ c.toNat ∧ c.toNat ≤ 13)

/-- Decimal digits. -/
def isdigit (c : Char) : Bool :=
  48 ≤ c.toNat ∧ c.toNat ≤ 57

/-- Largest `long` of the 64-bit Android ABIs. -/
def LONG_MAX : Int := 2 ^ 63 - 1

/-- Smallest `long` of the 64-bit Android ABIs. -/
def LONG_MIN : Int := -(2 ^ 63)

/-- Value of the longest run of decimal digits at the head of the input,
continuing from the accumulator. -/
def digitsValue : List Char → Nat → Nat
  | [], acc => acc
  | c :: cs, acc => if isdigit c then digitsValue cs (10 * acc + (c.toNat - 48)) else acc

/-- The conversion `strtol(s, NULL, 10)`: skip white space, read an optional
sign, convert the digits that follow (none gives `0`), and clamp to the range of
`long`. -/
def strtol (s : String) : Int :=
  match s.data.dropWhile isspace with
  | [] => 0
  | c :: cs =>
    if c = '-' then max LONG_MIN (-(digitsValue cs 0 : Int))
    else if c = '+' then min LONG_MAX (digitsValue cs 0 : Int)
    else min LONG_MAX (digitsValue (c :: cs) 0 : Int)

/-- Conversion of a `long` to `int`: the low 32 bits, read in two's complement. -/
def longToInt (x : Int) : Int := (x + 2 ^ 31) % 2 ^ 32 - 2 ^ 31

/-- The function `atoi`.  The C standard defines it as `(int) strtol(s, NULL, 10)`
apart from error reporting, and bionic implements it so; with the 64-bit `long`
of the arm64 and x86_64 Android ABIs the value of `strtol` is narrowed to its
low 32 bits. -/
def atoi (s : String) : Int := longToInt (strtol s)

/-! ## `CLI.c` -/

/-- The function `print_help`: the lines it prints to stdout, in order. -/
def print_help : List Event :=
  [ .stdout "AZenith Daemon CLI by @Zexshia\n",
    .stdout "Usage:\n",
    .stdout "  sys.azenith-service --run\n",
    .stdout "      Start AZenith daemon\n\n",
    .stdout "  sys.azenith-service --profile <1|2|3>\n",
    .stdout "      Apply AZenith Profile manually\n",
    .stdout "      1 = Performance\n",
    .stdout "      2 = Balanced\n",
    .stdout "      3 = Eco Mode\n\n",
    .stdout "  sys.azenith-service --log <TAG> <LEVEL> <MESSAGE>\n",
    .stdout "      Write log through AZenith logging service\n",
    .stdout "      Usage: --log <TAG> <LEVEL> <MESSAGE>\n",
    .stdout "      Levels: 0=DEBUG, 1=INFO, 2=WARN, 3=ERROR, 4=FATAL\n" ]

/-- The function `handle_profile(argc, argv)`. -/
def handle_profile (env : Env) (argc : Int) (argv : List String) : Outcome :=
  if argc < 3 then
    .ok (1, [.stderr "Missing profile number.\n"])
  else
    let ai_state := env.getprop AI_PROP
    if strcmp ai_state "1" = 0 then
      .ok (1, [.propGet AI_PROP,
               .stderr "ERROR: Auto mode enabled. Manual profile blocked.\n"])
    else
      match argv[2]? with
      | none => .error .argvOutOfBounds
      | some profile =>
        if strcmp profile "1" = 0 then
          .ok (0, [.propGet AI_PROP,
                   .logZenith LOG_INFO "Applying Performance Profile via execute",
                   .toast "Applying Performance Profile",
                   .runProfiler .PERFORMANCE_PROFILE,
                   .stdout "Applying Performance Profile\n"])
        else if strcmp profile "2" = 0 then
          .ok (0, [.propGet AI_PROP,
                   .logZenith LOG_INFO "Applying Balanced Profile via execute",
                   .toast "Applying Balanced Profile",
                   .runProfiler .BALANCED_PROFILE,
                   .stdout "Applying Balanced Profile\n"])
        else if strcmp profile "3" = 0 then
          .ok (0, [.propGet AI_PROP,
                   .logZenith LOG_INFO "Applying Eco Mode via execute",
                   .toast "Applying Eco Mode",
                   .runProfiler .ECO_MODE,
                   .stdout "Applying Eco Mode\n"])
        else
          .ok (1, [.propGet AI_PROP, .stderr "Invalid profiles.\n"])

/-- The loop `for (int i = 4; i < argc; i++)` of `handle_log`, started at index
`i` with the buffer holding `message`.  Each unfolding is one test of the loop
condition; `fuel` bounds the number of tests. -/
def handle_log_loop (argc : Int) (argv : List String) :
    Nat → Int → String → Except Fault String
  | 0, _, _ => .error .outOfFuel
  | fuel + 1, i, message =>
    if i < argc then
      match argv[i.toNat]? with
      | none => .error .argvOutOfBounds
      | some tok =>
        match strcat MESSAGE_SIZE message tok with
        | .error f => .error f
        | .ok m1 =>
          if i ≠ argc - 1 then
            match strcat MESSAGE_SIZE m1 " " with
            | .error f => .error f
            | .ok m2 => handle_log_loop argc argv fuel (i + 1) m2
          else
            handle_log_loop argc argv fuel (i + 1) m1
    else
      .ok message

/-- The function `handle_log(argc, argv)`.  The loop is given one test of its
condition more than the `argc - 4` iterations it can make. -/
def handle_log (_env : Env) (argc : Int) (argv : List String) : Outcome :=
  if argc < 5 then
    .ok (1, [.stderr "Usage: --log <TAG> <LEVEL> <MESSAGE>\n",
             .stderr "Levels: 0=DEBUG, 1=INFO, 2=WARN, 3=ERROR, 4=FATAL\n"])
  else
    match argv[3]? with
    | none => .error .argvOutOfBounds
    | some levelTok =>
      let level := atoi levelTok
      if level < LOG_DEBUG ∨ level > LOG_FATAL then
        .ok (1, [.stderr "Invalid log level (0..4)\n"])
      else
        match handle_log_loop argc argv ((argc - 4).toNat + 1) 4 "" with
        | .error f => .error f
        | .ok message =>
          match argv[2]? with
          | none => .error .argvOutOfBounds
          | some tag => .ok (0, [.externalLog level tag message])

/-- The loop of `handle_log` seen from the tokens still to be appended: the same
two `strcat` calls per token, the separator being appended when a token
follows.  Used to reason about the loop by induction over the tokens. -/
def assemble (cap : Nat) : String → List String → Except Fault String
  | message, [] => .ok message
  | message, tok :: rest =>
    match strcat cap message tok with
    | .error f => .error f
    | .ok m1 =>
      if rest ≠ [] then
        match strcat cap m1 " " with
        | .error f => .error f
        | .ok m2 => assemble cap m2 rest
      else
        assemble cap m1 rest

/-- Number of bytes of the message built from the given tokens: the bytes of
the tokens plus one separator for each gap between two tokens. -/
def messageLength (toks : List String) : Nat :=
  (toks.map strlen).sum + (toks.length - 1)

/-- Contents of the buffer once the loop of `handle_log` has appended the first
`j` of the message tokens `toks`: these tokens joined with single spaces,
followed by one more separator when a token has been appended and another one
is still to come. -/
def bufferAfter (toks : List String) (j : Nat) : String :=
  String.intercalate " " (toks.take j) ++ (if 0 < j ∧ j < toks.length then " " else "")

/-- A level token without a number: after the leading white space and one
optional sign, it does not go on with a decimal digit. -/
def nonNumeric (s : String) : Bool :=
  match s.data.dropWhile isspace with
  | [] => true
  | c :: cs =>
    if c = '-' ∨ c = '+' then
      match cs with
      | [] => true
      | d :: _ => !isdigit d
    else !isdigit c

/-! ## Facts about the libc model -/

theorem strlen_append (a b : String) : strlen (a ++ b) = strlen a + strlen b := by
  have h : (a ++ b) = ⟨a.data ++ b.data⟩ := String.ext (by simp)
  rw [strlen, strlen, strlen, h, String.utf8ByteSize_mk, String.utf8Len_append]
  cases a; cases b; rfl

theorem strlen_space : strlen " " = 1 := by decide

/-- A string of `n` copies of a one-byte character has `n` bytes. -/
theorem strlen_replicate (n : Nat) (c : Char) (hc : c.utf8Size = 1) :
    strlen (String.mk (List.replicate n c)) = n := by
  induction n with
  | zero => rfl
  | succ k ih =>
    have h := strlen_append (String.mk [c]) (String.mk (List.replicate k c))
    have hs : strlen (String.mk [c]) = 1 := by
      simp [strlen, String.utf8ByteSize_mk, hc]
    have happ : String.mk [c] ++ String.mk (List.replicate k c) =
        String.mk (List.replicate (k + 1) c) := String.ext (by simp [List.replicate_succ])
    rw [happ, ih, hs] at h
    omega

theorem strlen_empty : strlen "" = 0 := by decide


theorem strcmpAux_eq_zero_iff : ∀ (a b : List Char), strcmpAux a b = 0 ↔ a = b
  | [], [] => by simp [strcmpAux]
  | [], _ :: _ => by simp [strcmpAux]
  | _ :: _, [] => by simp [strcmpAux]
  | x :: xs, y :: ys => by
    have ih := strcmpAux_eq_zero_iff xs ys
    unfold strcmpAux
    by_cases h1 : x.toNat < y.toNat
    · have hne : x ≠ y := fun h => by subst h; exact absurd h1 (lt_irrefl _)
      simp [h1, hne]
    · by_cases h2 : y.toNat < x.toNat
      · have hne : x ≠ y := fun h => by subst h; exact absurd h2 (lt_irrefl _)
        simp [h1, h2, hne]
      · have hxy : x = y := by
          have : x.toNat = y.toNat := le_antisymm (not_lt.mp h2) (not_lt.mp h1)
          apply Char.ext
          apply UInt32.ext
          exact this
        simp [h1, h2, hxy, ih]

/-- The result of `strcmp` is zero exactly for equal strings. -/
theorem strcmp_eq_zero_iff (a b : String) : strcmp a b = 0 ↔ a = b := by
  unfold strcmp
  rw [strcmpAux_eq_zero_iff]
  constructor
  · intro h; exact String.ext h
  · intro h; rw [h]

/-- One step of the decimal conversion: the accumulator times ten plus the digit. -/
theorem digitsValue_append (pre rest : List Char) (hpre : ∀ c ∈ pre, isdigit c = true) :
    ∀ acc, digitsValue (pre ++ rest) acc =
      digitsValue rest (pre.foldl (fun a c => 10 * a + (c.toNat - 48)) acc) := by
  induction pre with
  | nil => intro acc; rfl
  | cons c cs ih =>
    intro acc
    have hc : isdigit c = true := hpre c (by simp)
    have hcs : ∀ d ∈ cs, isdigit d = true := fun d hd => hpre d (by simp [hd])
    simp only [List.cons_append, digitsValue, hc, if_true, List.foldl_cons]
    exact ih hcs _

theorem digitChar_facts (d : Nat) (hd : d < 10) :
    isdigit (Nat.digitChar d) = true ∧ (Nat.digitChar d).toNat - 48 = d := by
  interval_cases d <;> exact ⟨by decide, by decide⟩

/-- The digits `Nat.toDigitsCore` puts in front of its accumulator are decimal
digits whose value, most significant first, is the number converted. -/
theorem toDigitsCore_value :
    ∀ (fuel n : Nat) (ds : List Char), n < fuel →
      ∃ pre, Nat.toDigitsCore 10 fuel n ds = pre ++ ds ∧ pre ≠ [] ∧
        (∀ c ∈ pre, isdigit c = true) ∧
        pre.foldl (fun a c => 10 * a + (c.toNat - 48)) 0 = n
  | 0, n, ds, h => by omega
  | fuel + 1, n, ds, h => by
    have hd := digitChar_facts (n % 10) (Nat.mod_lt _ (by decide))
    simp only [Nat.toDigitsCore]
    by_cases hz : n / 10 = 0
    · rw [if_pos hz]
      refine ⟨[Nat.digitChar (n % 10)], rfl, by simp, ?_, ?_⟩
      · intro c hc
        rw [List.mem_singleton] at hc
        rw [hc]; exact hd.1
      · simp only [List.foldl_cons, List.foldl_nil, hd.2]
        omega
    · rw [if_neg hz]
      obtain ⟨pre, hpre, _, hdig, hval⟩ :=
        toDigitsCore_value fuel (n / 10) (Nat.digitChar (n % 10) :: ds) (by omega)
      refine ⟨pre ++ [Nat.digitChar (n % 10)], ?_, by simp, ?_, ?_⟩
      · rw [hpre]; simp
      · intro c hc
        rcases List.mem_append.mp hc with h1 | h1
        · exact hdig c h1
        · rw [List.mem_singleton] at h1
          rw [h1]; exact hd.1
      · rw [List.foldl_append, hval]
        simp only [List.foldl_cons, List.foldl_nil, hd.2]
        omega

/-- The decimal text of a natural number: a non-empty run of digits that
`digitsValue` converts back to the number. -/
theorem repr_digits (n : Nat) :
    ∃ c cs, (Nat.repr n).data = c :: cs ∧ isdigit c = true ∧ digitsValue (c :: cs) 0 = n := by
  obtain ⟨pre, hpre, hne, hdig, hval⟩ := toDigitsCore_value (n + 1) n [] (by omega)
  rw [List.append_nil] at hpre
  have hdata : (Nat.repr n).data = pre := by
    simp only [Nat.repr, Nat.toDigits, List.asString, hpre]
  cases pre with
  | nil => exact absurd rfl hne
  | cons c cs =>
    refine ⟨c, cs, hdata, hdig c (by simp), ?_⟩
    have := digitsValue_append (c :: cs) [] hdig 0
    rw [List.append_nil] at this
    rw [this, hval]
    rfl

theorem isdigit_not_special (c : Char) (h : isdigit c = true) :
    isspace c = false ∧ c ≠ '-' ∧ c ≠ '+' := by
  simp only [isdigit, decide_eq_true_eq] at h
  refine ⟨?_, ?_, ?_⟩
  · simp only [isspace, decide_eq_false_iff_not]
    omega
  · intro hc; rw [hc] at h; revert h; decide
  · intro hc; rw [hc] at h; revert h; decide

/-- The conversion `strtol` on the decimal text of a natural number. -/
theorem strtol_repr (n : Nat) : strtol (Nat.repr n) = min LONG_MAX (n : Int) := by
  obtain ⟨c, cs, hdata, hc, hval⟩ := repr_digits n
  obtain ⟨hsp, hminus, hplus⟩ := isdigit_not_special c hc
  unfold strtol
  rw [hdata, List.dropWhile_cons_of_neg (by simp [hsp])]
  simp only [hminus, hplus, if_false, hval]

/-- The conversion `strtol` on a minus sign followed by the decimal text of a
natural number. -/
theorem strtol_neg_repr (n : Nat) :
    strtol ("-" ++ Nat.repr n) = max LONG_MIN (-(n : Int)) := by
  obtain ⟨c, cs, hdata, hc, hval⟩ := repr_digits n
  have hd : ("-" ++ Nat.repr n).data = '-' :: (Nat.repr n).data := by
    rw [String.data_append]; rfl
  unfold strtol
  rw [hd, List.dropWhile_cons_of_neg (by decide)]
  simp only [if_true, hdata, hval]

/-- The function `atoi` gives back every integer of the range of `int` from its
decimal text. -/
theorem atoi_toString (n : Int) (hlo : -(2 ^ 31) ≤ n) (hhi : n < 2 ^ 31) :
    atoi (toString n) = n := by
  cases n with
  | ofNat m =>
    have h1 : toString (Int.ofNat m) = Nat.repr m := rfl
    have hm : (m : Int) < 2 ^ 31 := hhi
    rw [h1, atoi, strtol_repr, longToInt, LONG_MAX]
    simp only [Int.ofNat_eq_coe]
    have hmin : min (2 ^ 63 - 1 : Int) (m : Int) = m := by
      apply min_eq_right; omega
    rw [hmin]
    omega
  | negSucc m =>
    have h1 : toString (Int.negSucc m) = "-" ++ Nat.repr (m + 1) := rfl
    have hm : -(2 ^ 31 : Int) ≤ Int.negSucc m := hlo
    rw [h1, atoi, strtol_neg_repr, longToInt, LONG_MIN]
    have hneg : Int.negSucc m = -((m + 1 : Nat) : Int) := rfl
    rw [hneg] at hm ⊢
    have hmax : max (-(2 ^ 63 : Int)) (-((m + 1 : Nat) : Int)) = -((m + 1 : Nat) : Int) := by
      apply max_eq_right; omega
    rw [hmax]
    omega

/-! ## `handle_profile` -/

/-- C9: with fewer than three tokens `handle_profile` returns 1 after a single
line on stderr, whatever the property store holds: the property is not read and
no collaborator is called. -/
theorem handle_profile_missing_argument (env : Env) (argc : Int) (argv : List String)
    (h : argc < 3) :
    handle_profile env argc argv = .ok (1, [.stderr "Missing profile number.\n"]) := by
  simp [handle_profile, h]

theorem handle_profile_missing_argument_witness :
    ((2 : Int) < 3) ∧
    handle_profile ⟨fun _ => "1", 0, 0⟩ 2 ["azenith", "--profile"] =
      .ok (1, [.stderr "Missing profile number.\n"]) :=
  ⟨by decide, handle_profile_missing_argument ⟨fun _ => "1", 0, 0⟩ 2 ["azenith", "--profile"] (by decide)⟩

theorem handle_profile_one (env : Env) (argc : Int) (argv : List String)
    (hargc : 3 ≤ argc) (hai : env.getprop AI_PROP ≠ "1") (htok : argv[2]? = some "1") :
    handle_profile env argc argv =
      .ok (0, [.propGet AI_PROP,
               .logZenith LOG_INFO "Applying Performance Profile via execute",
               .toast "Applying Performance Profile",
               .runProfiler .PERFORMANCE_PROFILE,
               .stdout "Applying Performance Profile\n"]) := by
  simp [handle_profile, not_lt.mpr hargc, strcmp_eq_zero_iff, hai, htok]

theorem handle_profile_two (env : Env) (argc : Int) (argv : List String)
    (hargc : 3 ≤ argc) (hai : env.getprop AI_PROP ≠ "1") (htok : argv[2]? = some "2") :
    handle_profile env argc argv =
      .ok (0, [.propGet AI_PROP,
               .logZenith LOG_INFO "Applying Balanced Profile via execute",
               .toast "Applying Balanced Profile",
               .runProfiler .BALANCED_PROFILE,
               .stdout "Applying Balanced Profile\n"]) := by
  simp [handle_profile, not_lt.mpr hargc, strcmp_eq_zero_iff, hai, htok]

theorem handle_profile_three (env : Env) (argc : Int) (argv : List String)
    (hargc : 3 ≤ argc) (hai : env.getprop AI_PROP ≠ "1") (htok : argv[2]? = some "3") :
    handle_profile env argc argv =
      .ok (0, [.propGet AI_PROP,
               .logZenith LOG_INFO "Applying Eco Mode via execute",
               .toast "Applying Eco Mode",
               .runProfiler .ECO_MODE,
               .stdout "Applying Eco Mode\n"]) := by
  simp [handle_profile, not_lt.mpr hargc, strcmp_eq_zero_iff, hai, htok]

/-- C2: with at least three tokens and the property `AIenabled` reading exactly
`"1"`, `handle_profile` returns 1 whatever the token vector holds; after the
property read its only action is the auto-mode line on stderr, so no log record,
toast, profiler call or stdout line occurs. -/
theorem handle_profile_auto_mode_blocks (env : Env) (argc : Int) (argv : List String)
    (hargc : 3 ≤ argc) (hai : env.getprop AI_PROP = "1") :
    handle_profile env argc argv =
      .ok (1, [.propGet AI_PROP,
               .stderr "ERROR: Auto mode enabled. Manual profile blocked.\n"]) := by
  simp [handle_profile, not_lt.mpr hargc, strcmp_eq_zero_iff, hai]

theorem handle_profile_auto_mode_blocks_witness :
    ((3 : Int) ≤ 3) ∧ (Env.mk (fun _ => "1") 0 0).getprop AI_PROP = "1" ∧
    handle_profile ⟨fun _ => "1", 0, 0⟩ 3 ["azenith", "--profile", "1"] =
      .ok (1, [.propGet AI_PROP,
               .stderr "ERROR: Auto mode enabled. Manual profile blocked.\n"]) :=
  ⟨by decide, rfl,
    handle_profile_auto_mode_blocks ⟨fun _ => "1", 0, 0⟩ 3 ["azenith", "--profile", "1"]
      (by decide) rfl⟩

/-- C3: with at least three tokens and auto mode inactive, a third token that is
not exactly `"1"`, `"2"` or `"3"` makes `handle_profile` return 1; after the
property read its only action is the invalid-profile line on stderr, so no log
record, toast or profiler call is made.  The comparison is on the whole string:
no token is converted to a number. -/
theorem handle_profile_invalid_token (env : Env) (argc : Int) (argv : List String)
    (tok : String) (hargc : 3 ≤ argc) (hai : env.getprop AI_PROP ≠ "1")
    (htok : argv[2]? = some tok) (h1 : tok ≠ "1") (h2 : tok ≠ "2") (h3 : tok ≠ "3") :
    handle_profile env argc argv =
      .ok (1, [.propGet AI_PROP, .stderr "Invalid profiles.\n"]) := by
  simp [handle_profile, not_lt.mpr hargc, strcmp_eq_zero_iff, hai, htok, h1, h2, h3]

theorem handle_profile_invalid_token_witness :
    ((3 : Int) ≤ 3) ∧ (Env.mk (fun _ => "0") 0 0).getprop AI_PROP ≠ "1" ∧
    handle_profile ⟨fun _ => "0", 0, 0⟩ 3 ["azenith", "--profile", " 1"] =
      .ok (1, [.propGet AI_PROP, .stderr "Invalid profiles.\n"]) ∧
    handle_profile ⟨fun _ => "0", 0, 0⟩ 3 ["azenith", "--profile", "01"] =
      .ok (1, [.propGet AI_PROP, .stderr "Invalid profiles.\n"]) ∧
    handle_profile ⟨fun _ => "0", 0, 0⟩ 3 ["azenith", "--profile", "2.0"] =
      .ok (1, [.propGet AI_PROP, .stderr "Invalid profiles.\n"]) ∧
    handle_profile ⟨fun _ => "0", 0, 0⟩ 3 ["azenith", "--profile", ""] =
      .ok (1, [.propGet AI_PROP, .stderr "Invalid profiles.\n"]) :=
  ⟨by decide, by decide,
    handle_profile_invalid_token ⟨fun _ => "0", 0, 0⟩ 3 ["azenith", "--profile", " 1"] " 1"
      (by decide) (by decide) rfl (by decide) (by decide) (by decide),
    handle_profile_invalid_token ⟨fun _ => "0", 0, 0⟩ 3 ["azenith", "--profile", "01"] "01"
      (by decide) (by decide) rfl (by decide) (by decide) (by decide),
    handle_profile_invalid_token ⟨fun _ => "0", 0, 0⟩ 3 ["azenith", "--profile", "2.0"] "2.0"
      (by decide) (by decide) rfl (by decide) (by decide) (by decide),
    handle_profile_invalid_token ⟨fun _ => "0", 0, 0⟩ 3 ["azenith", "--profile", ""] ""
      (by decide) (by decide) rfl (by decide) (by decide) (by decide)⟩

/-- C1: with at least three tokens, a property `AIenabled` different from `"1"`
and a third token equal to `"1"`, `"2"` or `"3"`, `handle_profile` returns 0 and,
after reading the property, performs exactly one INFO log record, then one
toast, then one profiler call, then one stdout line, in that order; nothing goes
to stderr. -/
theorem handle_profile_effect_order (env : Env) (argc : Int) (argv : List String)
    (tok : String) (hargc : 3 ≤ argc) (hai : env.getprop AI_PROP ≠ "1")
    (htok : argv[2]? = some tok) (hval : tok = "1" ∨ tok = "2" ∨ tok = "3") :
    ∃ (msg text line : String) (mode : ProfileMode) (trace : List Event),
      handle_profile env argc argv = .ok (0, trace) ∧
      trace = [.propGet AI_PROP, .logZenith LOG_INFO msg, .toast text,
               .runProfiler mode, .stdout line] ∧
      ∀ s, Event.stderr s ∉ trace := by
  rcases hval with h | h | h <;> subst h
  · exact ⟨_, _, _, _, _, handle_profile_one env argc argv hargc hai htok, rfl, by simp⟩
  · exact ⟨_, _, _, _, _, handle_profile_two env argc argv hargc hai htok, rfl, by simp⟩
  · exact ⟨_, _, _, _, _, handle_profile_three env argc argv hargc hai htok, rfl, by simp⟩

theorem handle_profile_effect_order_witness :
    ∃ (msg text line : String) (mode : ProfileMode) (trace : List Event),
      handle_profile ⟨fun _ => "", 0, 0⟩ 3 ["azenith", "--profile", "3"] = .ok (0, trace) ∧
      trace = [.propGet AI_PROP, .logZenith LOG_INFO msg, .toast text,
               .runProfiler mode, .stdout line] ∧
      ∀ s, Event.stderr s ∉ trace :=
  handle_profile_effect_order ⟨fun _ => "", 0, 0⟩ 3 ["azenith", "--profile", "3"] "3"
    (by decide) (by decide) rfl (Or.inr (Or.inr rfl))

/-- C4: for an accepted invocation (at least three tokens, auto mode inactive)
token `"1"` forwards `PERFORMANCE_PROFILE` with toast "Applying Performance
Profile", `"2"` forwards `BALANCED_PROFILE` with toast "Applying Balanced
Profile" and `"3"` forwards `ECO_MODE` with toast "Applying Eco Mode"; each time
the log record has level INFO and the toast text followed by " via execute" as
its message, and the stdout line is the toast text followed by a newline. -/
theorem handle_profile_mapping (env : Env) (argc : Int) (argv : List String)
    (hargc : 3 ≤ argc) (hai : env.getprop AI_PROP ≠ "1") :
    (argv[2]? = some "1" →
      handle_profile env argc argv =
        .ok (0, [.propGet AI_PROP,
                 .logZenith LOG_INFO ("Applying Performance Profile" ++ " via execute"),
                 .toast "Applying Performance Profile",
                 .runProfiler .PERFORMANCE_PROFILE,
                 .stdout ("Applying Performance Profile" ++ "\n")])) ∧
    (argv[2]? = some "2" →
      handle_profile env argc argv =
        .ok (0, [.propGet AI_PROP,
                 .logZenith LOG_INFO ("Applying Balanced Profile" ++ " via execute"),
                 .toast "Applying Balanced Profile",
                 .runProfiler .BALANCED_PROFILE,
                 .stdout ("Applying Balanced Profile" ++ "\n")])) ∧
    (argv[2]? = some "3" →
      handle_profile env argc argv =
        .ok (0, [.propGet AI_PROP,
                 .logZenith LOG_INFO ("Applying Eco Mode" ++ " via execute"),
                 .toast "Applying Eco Mode",
                 .runProfiler .ECO_MODE,
                 .stdout ("Applying Eco Mode" ++ "\n")])) ∧
    LOG_INFO = 1 := by
  exact ⟨fun h => handle_profile_one env argc argv hargc hai h,
    fun h => handle_profile_two env argc argv hargc hai h,
    fun h => handle_profile_three env argc argv hargc hai h, rfl⟩

theorem handle_profile_mapping_witness :
    handle_profile ⟨fun _ => "0", 0, 0⟩ 3 ["azenith", "--profile", "2"] =
      .ok (0, [.propGet AI_PROP,
               .logZenith LOG_INFO "Applying Balanced Profile via execute",
               .toast "Applying Balanced Profile",
               .runProfiler .BALANCED_PROFILE,
               .stdout "Applying Balanced Profile\n"]) :=
  (handle_profile_mapping ⟨fun _ => "0", 0, 0⟩ 3 ["azenith", "--profile", "2"]
    (by decide) (by decide)).2.1 rfl

/-! ## `handle_log` -/

theorem intercalate_go_append (sep x : String) :
    ∀ (ts : List String) (acc : String),
      String.intercalate.go (x ++ acc) sep ts = x ++ String.intercalate.go acc sep ts
  | [], acc => by simp [String.intercalate.go]
  | t :: ts, acc => by
    simp only [String.intercalate.go]
    rw [String.append_assoc, String.append_assoc, intercalate_go_append sep x ts,
      String.append_assoc]

theorem intercalate_cons_cons (sep t u : String) (ts : List String) :
    String.intercalate sep (t :: u :: ts) = t ++ sep ++ String.intercalate sep (u :: ts) := by
  simp only [String.intercalate, String.intercalate.go]
  rw [intercalate_go_append]

theorem strlen_intercalate :
    ∀ (toks : List String), strlen (String.intercalate " " toks) = messageLength toks
  | [] => by simp [String.intercalate, messageLength, strlen_empty]
  | [t] => by simp [String.intercalate, String.intercalate.go, messageLength]
  | t :: u :: ts => by
    rw [intercalate_cons_cons, strlen_append, strlen_append, strlen_space,
      strlen_intercalate (u :: ts)]
    simp [messageLength]
    omega

theorem assemble_cons_cons (cap : Nat) (message t u : String) (ts : List String) :
    assemble cap message (t :: u :: ts) =
      if strlen message + strlen t + 1 ≤ cap then
        if strlen (message ++ t) + strlen " " + 1 ≤ cap then
          assemble cap (message ++ t ++ " ") (u :: ts)
        else .error .bufferOverflow
      else .error .bufferOverflow := by
  rw [assemble]
  simp only [strcat]
  by_cases hfit : strlen message + strlen t + 1 ≤ cap
  · by_cases hsep : strlen (message ++ t) + strlen " " + 1 ≤ cap
    · simp [hfit, hsep]
    · simp [hfit, hsep]
  · simp [hfit]

/-- Closed form of the token view of the loop: it yields the buffer followed by
the tokens joined with single spaces when that fits in `cap` bytes with its
terminator, and runs past the buffer otherwise. -/
theorem assemble_eq (cap : Nat) :
    ∀ (toks : List String) (message : String), strlen message + 1 ≤ cap →
      assemble cap message toks =
        if strlen message + strlen (String.intercalate " " toks) + 1 ≤ cap then
          .ok (message ++ String.intercalate " " toks)
        else .error .bufferOverflow
  | [], message, h => by
    simp [assemble, String.intercalate, strlen_empty, h]
  | [t], message, h => by
    simp only [assemble, strcat, String.intercalate, String.intercalate.go]
    by_cases hfit : strlen message + strlen t + 1 ≤ cap
    · simp [hfit]
    · simp [hfit]
  | t :: u :: ts, message, h => by
    rw [intercalate_cons_cons, strlen_append, strlen_append, strlen_space,
      assemble_cons_cons]
    by_cases hfit : strlen message + strlen t + 1 ≤ cap
    · by_cases hsep : strlen (message ++ t) + strlen " " + 1 ≤ cap
      · have hinv : strlen (message ++ t ++ " ") + 1 ≤ cap := by
          rw [strlen_append]; exact hsep
        rw [if_pos hfit, if_pos hsep]
        rw [assemble_eq cap (u :: ts) (message ++ t ++ " ") hinv]
        rw [strlen_append, strlen_append, strlen_space]
        have hassoc : message ++ t ++ " " ++ String.intercalate " " (u :: ts) =
            message ++ (t ++ " " ++ String.intercalate " " (u :: ts)) := by
          simp [String.append_assoc]
        rw [hassoc]
        by_cases hall : strlen message + strlen t + 1 +
            strlen (String.intercalate " " (u :: ts)) + 1 ≤ cap
        · have hall2 : strlen message + (strlen t + 1 +
              strlen (String.intercalate " " (u :: ts))) + 1 ≤ cap := by omega
          simp [hall, hall2]
        · have hall2 : ¬ strlen message + (strlen t + 1 +
              strlen (String.intercalate " " (u :: ts))) + 1 ≤ cap := by omega
          simp [hall, hall2]
      · rw [strlen_append, strlen_space] at hsep
        have hall2 : ¬ strlen message + (strlen t + 1 +
            strlen (String.intercalate " " (u :: ts))) + 1 ≤ cap := by omega
        have hsep2 : ¬ strlen (message ++ t) + strlen " " + 1 ≤ cap := by
          rw [strlen_append, strlen_space]; exact hsep
        simp [hfit, hsep2, hall2]
    · have hall2 : ¬ strlen message + (strlen t + 1 +
          strlen (String.intercalate " " (u :: ts))) + 1 ≤ cap := by omega
      simp [hfit, hall2]

/-- The loop of `handle_log`, started at index `k` of a vector of exactly `argc`
tokens with enough fuel, is the token view applied to the tokens from `k` on. -/
theorem handle_log_loop_eq (argv : List String) :
    ∀ (fuel k : Nat) (message : String), k ≤ argv.length → argv.length - k < fuel →
      handle_log_loop (argv.length : Int) argv fuel (k : Int) message =
        assemble MESSAGE_SIZE message (argv.drop k)
  | 0, k, message, _, hf => by omega
  | fuel + 1, k, message, hk, hf => by
    simp only [handle_log_loop]
    by_cases hlt : k < argv.length
    · have hlt2 : ((k : Int) < (argv.length : Int)) := by exact_mod_cast hlt
      rw [if_pos hlt2, Int.toNat_ofNat, List.getElem?_eq_getElem hlt,
        List.drop_eq_getElem_cons hlt]
      simp only [assemble]
      cases hcat : strcat MESSAGE_SIZE message argv[k] with
      | error f => rfl
      | ok m1 =>
        simp only []
        have hstep : ((k : Int) + 1) = ((k + 1 : Nat) : Int) := by push_cast; rfl
        by_cases hlast : k + 1 < argv.length
        · have hne : (k : Int) ≠ (argv.length : Int) - 1 := by omega
          have hrest : List.drop (k + 1) argv ≠ [] := by
            simp [List.drop_eq_nil_iff]; omega
          rw [if_pos hne, if_pos hrest]
          cases hsep : strcat MESSAGE_SIZE m1 " " with
          | error f => rfl
          | ok m2 =>
            simp only []
            rw [hstep, handle_log_loop_eq argv fuel (k + 1) m2 (by omega) (by omega)]
        · have hne : ¬ ((k : Int) ≠ (argv.length : Int) - 1) := by omega
          have hrest : ¬ (List.drop (k + 1) argv ≠ []) := by
            simp [List.drop_eq_nil_iff]; omega
          rw [if_neg hne, if_neg hrest, hstep,
            handle_log_loop_eq argv fuel (k + 1) m1 (by omega) (by omega)]
    · have hlt2 : ¬ ((k : Int) < (argv.length : Int)) := by exact_mod_cast hlt
      have hdrop : List.drop k argv = [] := by
        rw [List.drop_eq_nil_iff]; omega
      rw [if_neg hlt2, hdrop]
      rfl

/-- What `handle_log` does on a vector of exactly `argc ≥ 5` tokens, by cases on
the converted level and on the size of the message. -/
theorem handle_log_eq (env : Env) (argv : List String) (tag lv : String)
    (h5 : 5 ≤ argv.length) (htag : argv[2]? = some tag) (hlv : argv[3]? = some lv) :
    handle_log env (argv.length : Int) argv =
      if atoi lv < LOG_DEBUG ∨ atoi lv > LOG_FATAL then
        .ok (1, [.stderr "Invalid log level (0..4)\n"])
      else if messageLength (argv.drop 4) < MESSAGE_SIZE then
        .ok (0, [.externalLog (atoi lv) tag (String.intercalate " " (argv.drop 4))])
      else .error .bufferOverflow := by
  have hargc : ¬ ((argv.length : Int) < 5) := by omega
  have hloop : handle_log_loop (argv.length : Int) argv
      (((argv.length : Int) - 4).toNat + 1) 4 "" =
      assemble MESSAGE_SIZE "" (argv.drop 4) := by
    have h4 : (4 : Int) = ((4 : Nat) : Int) := rfl
    rw [h4]
    exact handle_log_loop_eq argv _ 4 "" (by omega) (by omega)
  have hasm : assemble MESSAGE_SIZE "" (argv.drop 4) =
      if messageLength (argv.drop 4) < MESSAGE_SIZE then
        .ok (String.intercalate " " (argv.drop 4))
      else .error .bufferOverflow := by
    rw [assemble_eq MESSAGE_SIZE (argv.drop 4) "" (by decide), strlen_intercalate,
      strlen_empty]
    by_cases hfit : messageLength (argv.drop 4) < MESSAGE_SIZE
    · have hfit2 : 0 + messageLength (argv.drop 4) + 1 ≤ MESSAGE_SIZE := by omega
      rw [if_pos hfit, if_pos hfit2]
      simp
    · have hfit2 : ¬ (0 + messageLength (argv.drop 4) + 1 ≤ MESSAGE_SIZE) := by omega
      rw [if_neg hfit, if_neg hfit2]
  unfold handle_log
  rw [if_neg hargc, hlv]
  simp only []
  by_cases hlevel : atoi lv < LOG_DEBUG ∨ atoi lv > LOG_FATAL
  · rw [if_pos hlevel, if_pos hlevel]
  · rw [if_neg hlevel, if_neg hlevel, hloop, hasm, htag]
    by_cases hfit : messageLength (argv.drop 4) < MESSAGE_SIZE
    · rw [if_pos hfit, if_pos hfit]
    · rw [if_neg hfit, if_neg hfit]

theorem messageLength_singleton (t : String) : messageLength [t] = strlen t := by
  simp [messageLength]

theorem messageLength_pair (t u : String) :
    messageLength [t, u] = strlen t + strlen u + 1 := by
  simp [messageLength]

/-- C10: with fewer than five tokens `handle_log` returns 1 after writing the
usage line and the level-enumeration line to stderr, whatever the tokens are;
no log record is forwarded. -/
theorem handle_log_usage (env : Env) (argc : Int) (argv : List String) (h : argc < 5) :
    handle_log env argc argv =
      .ok (1, [.stderr "Usage: --log <TAG> <LEVEL> <MESSAGE>\n",
               .stderr "Levels: 0=DEBUG, 1=INFO, 2=WARN, 3=ERROR, 4=FATAL\n"]) := by
  simp [handle_log, h]

theorem handle_log_usage_witness :
    ((4 : Int) < 5) ∧
    handle_log ⟨fun _ => "", 0, 0⟩ 4 ["azenith", "--log", "NET", "3"] =
      .ok (1, [.stderr "Usage: --log <TAG> <LEVEL> <MESSAGE>\n",
               .stderr "Levels: 0=DEBUG, 1=INFO, 2=WARN, 3=ERROR, 4=FATAL\n"]) :=
  ⟨by decide, handle_log_usage ⟨fun _ => "", 0, 0⟩ 4 ["azenith", "--log", "NET", "3"] (by decide)⟩

/-- C7: an accepted invocation of `handle_log` (exactly `argc ≥ 5` tokens, a level
token that `atoi` converts into `0..4`, a message that fits the buffer) returns
0 and its whole trace is one call of `external_log` with the converted level,
the token `argv[2]` as tag, and the assembled message. -/
theorem handle_log_forwards (env : Env) (argc : Int) (argv : List String)
    (tag lv : String) (hargc : argc = argv.length) (h5 : 5 ≤ argc)
    (htag : argv[2]? = some tag) (hlv : argv[3]? = some lv)
    (hlo : LOG_DEBUG ≤ atoi lv) (hhi : atoi lv ≤ LOG_FATAL)
    (hfit : messageLength (argv.drop 4) < MESSAGE_SIZE) :
    handle_log env argc argv =
      .ok (0, [.externalLog (atoi lv) tag (String.intercalate " " (argv.drop 4))]) := by
  subst hargc
  have hlevel : ¬ (atoi lv < LOG_DEBUG ∨ atoi lv > LOG_FATAL) := by
    intro h; rcases h with h | h <;> omega
  rw [handle_log_eq env argv tag lv (by omega) htag hlv, if_neg hlevel, if_pos hfit]

theorem handle_log_forwards_witness :
    handle_log ⟨fun _ => "", 0, 0⟩ 6 ["azenith", "--log", "NET", "3", "link", "down"] =
      .ok (0, [.externalLog 3 "NET" "link down"]) :=
  handle_log_forwards ⟨fun _ => "", 0, 0⟩ 6 ["azenith", "--log", "NET", "3", "link", "down"]
    "NET" "3" rfl (by decide) rfl rfl (by decide) (by decide) (by decide)

/-- C6: for an accepted invocation of `handle_log` the forwarded message is the
list of tokens `argv[4], ..., argv[argc-1]`, in that order, joined with one space
between adjacent tokens; its length is the sum of the token lengths plus one
per gap, so no space is added in front or behind. -/
theorem handle_log_message (env : Env) (argc : Int) (argv : List String)
    (lv : String) (hargc : argc = argv.length) (h5 : 5 ≤ argc)
    (hlv : argv[3]? = some lv) (hlo : LOG_DEBUG ≤ atoi lv) (hhi : atoi lv ≤ LOG_FATAL)
    (hfit : messageLength (argv.drop 4) < MESSAGE_SIZE) :
    ∃ (level : Int) (tag : String),
      handle_log env argc argv =
        .ok (0, [.externalLog level tag (String.intercalate " " (argv.drop 4))]) ∧
      strlen (String.intercalate " " (argv.drop 4)) =
        ((argv.drop 4).map strlen).sum + ((argv.drop 4).length - 1) := by
  subst hargc
  have hlen : 2 < argv.length := by omega
  have hlevel : ¬ (atoi lv < LOG_DEBUG ∨ atoi lv > LOG_FATAL) := by
    intro h; rcases h with h | h <;> omega
  refine ⟨atoi lv, argv[2], ?_, ?_⟩
  · rw [handle_log_eq env argv argv[2] lv (by omega) (List.getElem?_eq_getElem hlen) hlv,
      if_neg hlevel, if_pos hfit]
  · rw [strlen_intercalate]; rfl

theorem handle_log_message_witness :
    (∃ (level : Int) (tag : String),
      handle_log ⟨fun _ => "", 0, 0⟩ 7 ["azenith", "--log", "T", "1", "a", "b", "c"] =
        .ok (0, [.externalLog level tag
          (String.intercalate " " (List.drop 4 ["azenith", "--log", "T", "1", "a", "b", "c"]))]) ∧
      strlen (String.intercalate " " (List.drop 4 ["azenith", "--log", "T", "1", "a", "b", "c"])) =
        ((List.drop 4 ["azenith", "--log", "T", "1", "a", "b", "c"]).map strlen).sum +
          ((List.drop 4 ["azenith", "--log", "T", "1", "a", "b", "c"]).length - 1)) ∧
    String.intercalate " " (List.drop 4 ["azenith", "--log", "T", "1", "a", "b", "c"]) = "a b c" ∧
    String.intercalate " " (List.drop 4 ["azenith", "--log", "T", "1", "only"]) = "only" :=
  ⟨handle_log_message ⟨fun _ => "", 0, 0⟩ 7 ["azenith", "--log", "T", "1", "a", "b", "c"] "1"
    rfl (by decide) rfl (by decide) (by decide) (by decide), by decide, by decide⟩

/-- C8, what the code does: when the message assembled from `argv[4..]` needs
1024 bytes or more (token bytes plus one separator per gap, the terminator not
counted), an invocation with a valid level is not rejected with a status: a
`strcat` of the loop writes past `message[1024]`, and nothing is reported. -/
theorem handle_log_overflow (env : Env) (argc : Int) (argv : List String)
    (lv : String) (hargc : argc = argv.length) (h5 : 5 ≤ argc)
    (hlv : argv[3]? = some lv) (hlo : LOG_DEBUG ≤ atoi lv) (hhi : atoi lv ≤ LOG_FATAL)
    (hbig : MESSAGE_SIZE ≤ messageLength (argv.drop 4)) :
    handle_log env argc argv = .error .bufferOverflow := by
  subst hargc
  have hlen : 2 < argv.length := by omega
  have hlevel : ¬ (atoi lv < LOG_DEBUG ∨ atoi lv > LOG_FATAL) := by
    intro h; rcases h with h | h <;> omega
  have hfit : ¬ (messageLength (argv.drop 4) < MESSAGE_SIZE) := by omega
  rw [handle_log_eq env argv argv[2] lv (by omega) (List.getElem?_eq_getElem hlen) hlv,
    if_neg hlevel, if_neg hfit]

theorem handle_log_overflow_witness :
    messageLength (List.drop 4 ["azenith", "--log", "NET", "3",
      String.mk (List.replicate 1000 'x'), String.mk (List.replicate 23 'y')]) = 1024 ∧
    handle_log ⟨fun _ => "", 0, 0⟩ 6 ["azenith", "--log", "NET", "3",
      String.mk (List.replicate 1000 'x'), String.mk (List.replicate 23 'y')] =
      .error .bufferOverflow :=
  ⟨by
      rw [List.drop, List.drop, List.drop, List.drop, List.drop, messageLength_pair,
        strlen_replicate 1000 'x' (by decide), strlen_replicate 23 'y' (by decide)],
    handle_log_overflow ⟨fun _ => "", 0, 0⟩ 6 ["azenith", "--log", "NET", "3",
      String.mk (List.replicate 1000 'x'), String.mk (List.replicate 23 'y')] "3"
      rfl (by decide) rfl (by decide) (by decide)
      (by
        rw [List.drop, List.drop, List.drop, List.drop, List.drop, messageLength_pair,
          strlen_replicate 1000 'x' (by decide), strlen_replicate 23 'y' (by decide)]
        decide)⟩

/-- C5: the range check of `handle_log` misses integers beyond the range of
`int`.  The level token "4294967296" is the decimal text of an integer above 4,
and `strtol` reads it in full; `atoi` keeps the low 32 bits of that 64-bit
`long`, which are 0, so the test `level < LOG_DEBUG || level > LOG_FATAL` does
not fire and the record is forwarded at level 0 with status 0. -/
theorem handle_log_level_narrowed :
    toString (4294967296 : Int) = "4294967296" ∧ (4 : Int) < 4294967296 ∧
    strtol "4294967296" = 4294967296 ∧ atoi "4294967296" = 0 ∧
    handle_log ⟨fun _ => "", 0, 0⟩ 5 ["azenith", "--log", "NET", "4294967296", "x"] =
      .ok (0, [.externalLog 0 "NET" "x"]) :=
  ⟨by decide, by decide, by decide, by decide, rfl⟩

/-- The range check on decimal level tokens inside the range of `int`: for
exactly `argc ≥ 5` tokens whose level token is the decimal text of an integer
`n` in the range of a 32-bit `int`: if `0 ≤ n ≤ 4` and the message fits the
buffer, the handler returns 0 and forwards one record whose level is `n`; if
`n < 0` or `n > 4`, it returns 1 with the invalid-level line on stderr and
forwards nothing. -/
theorem handle_log_level_check (env : Env) (argc : Int) (argv : List String) (n : Int)
    (hargc : argc = argv.length) (h5 : 5 ≤ argc)
    (hlv : argv[3]? = some (toString n)) (hlo : -(2 ^ 31) ≤ n) (hhi : n < 2 ^ 31) :
    ((0 ≤ n ∧ n ≤ 4) → messageLength (argv.drop 4) < MESSAGE_SIZE →
      ∃ (tag msg : String), handle_log env argc argv = .ok (0, [.externalLog n tag msg])) ∧
    ((n < 0 ∨ 4 < n) →
      handle_log env argc argv = .ok (1, [.stderr "Invalid log level (0..4)\n"])) := by
  subst hargc
  have hlen : 2 < argv.length := by omega
  have hatoi : atoi (toString n) = n := atoi_toString n hlo hhi
  have h := handle_log_eq env argv argv[2] (toString n) (by omega)
    (List.getElem?_eq_getElem hlen) hlv
  rw [hatoi] at h
  constructor
  · intro hn hfit
    have hlevel : ¬ (n < LOG_DEBUG ∨ n > LOG_FATAL) := by
      simp only [LOG_DEBUG, LOG_FATAL]; omega
    rw [if_neg hlevel, if_pos hfit] at h
    exact ⟨_, _, h⟩
  · intro hn
    have hlevel : n < LOG_DEBUG ∨ n > LOG_FATAL := by
      simp only [LOG_DEBUG, LOG_FATAL]; omega
    rw [if_pos hlevel] at h
    exact h

theorem handle_log_level_check_witness :
    (∃ (tag msg : String),
      handle_log ⟨fun _ => "", 0, 0⟩ 5 ["azenith", "--log", "NET", "4", "x"] =
        .ok (0, [.externalLog 4 tag msg])) ∧
    handle_log ⟨fun _ => "", 0, 0⟩ 5 ["azenith", "--log", "NET", "9", "x"] =
      .ok (1, [.stderr "Invalid log level (0..4)\n"]) ∧
    handle_log ⟨fun _ => "", 0, 0⟩ 5 ["azenith", "--log", "NET", "-1", "x"] =
      .ok (1, [.stderr "Invalid log level (0..4)\n"]) :=
  ⟨(handle_log_level_check ⟨fun _ => "", 0, 0⟩ 5 ["azenith", "--log", "NET", "4", "x"] 4
      rfl (by decide) rfl (by decide) (by decide)).1 (by decide) (by decide),
    (handle_log_level_check ⟨fun _ => "", 0, 0⟩ 5 ["azenith", "--log", "NET", "9", "x"] 9
      rfl (by decide) rfl (by decide) (by decide)).2 (by decide),
    (handle_log_level_check ⟨fun _ => "", 0, 0⟩ 5 ["azenith", "--log", "NET", "-1", "x"] (-1)
      rfl (by decide) (by decide) (by decide) (by decide)).2 (by decide)⟩

/-- C11, as stated, fails: the tag is never examined, so an invocation whose tag
token is the empty string is forwarded, with the empty tag. -/
theorem handle_log_forwarded_fields_counterexample :
    handle_log ⟨fun _ => "", 0, 0⟩ 5 ["azenith", "--log", "", "1", "x"] =
      .ok (0, [.externalLog 1 "" "x"]) := by
  rfl

/-- Every record in the trace of a call of `handle_log` that returns has its
level in `0..4` and carries the token `argv[2]` unchanged as its tag; the status
returned with it is 0. -/
theorem handle_log_fields_of_ok (env : Env) (argc : Int) (argv : List String)
    (status : Int) (trace : List Event) (level : Int) (tag msg : String)
    (hrun : handle_log env argc argv = .ok (status, trace))
    (hmem : Event.externalLog level tag msg ∈ trace) :
    LOG_DEBUG ≤ level ∧ level ≤ LOG_FATAL ∧ argv[2]? = some tag ∧ status = 0 := by
  unfold handle_log at hrun
  split at hrun
  · simp only [Except.ok.injEq, Prod.mk.injEq] at hrun
    rw [← hrun.2] at hmem
    simp at hmem
  · split at hrun
    · simp at hrun
    · rename_i lv hlv
      simp only [] at hrun
      split at hrun
      · simp only [Except.ok.injEq, Prod.mk.injEq] at hrun
        rw [← hrun.2] at hmem
        simp at hmem
      · rename_i hlevel
        split at hrun
        · simp at hrun
        · split at hrun
          · simp at hrun
          · rename_i tag0 htag
            simp only [Except.ok.injEq, Prod.mk.injEq] at hrun
            rw [← hrun.2] at hmem
            simp only [List.mem_singleton, Event.externalLog.injEq] at hmem
            obtain ⟨hl, ht, _⟩ := hmem
            rw [not_or, not_lt, not_lt] at hlevel
            refine ⟨?_, ?_, ?_, hrun.1.symm⟩
            · rw [hl]; exact hlevel.1
            · rw [hl]; exact hlevel.2
            · rw [ht]; exact htag

/-- A call of `handle_log` on exactly `argc` tokens whose message fits the buffer
returns. -/
theorem handle_log_returns (env : Env) (argv : List String)
    (hfit : messageLength (argv.drop 4) < MESSAGE_SIZE) :
    ∃ (status : Int) (trace : List Event),
      handle_log env (argv.length : Int) argv = .ok (status, trace) := by
  by_cases h5 : (argv.length : Int) < 5
  · exact ⟨1, [.stderr "Usage: --log <TAG> <LEVEL> <MESSAGE>\n",
      .stderr "Levels: 0=DEBUG, 1=INFO, 2=WARN, 3=ERROR, 4=FATAL\n"],
      by simp [handle_log, h5]⟩
  · have h2 : 2 < argv.length := by omega
    have h3 : 3 < argv.length := by omega
    have h := handle_log_eq env argv argv[2] argv[3] (by omega)
      (List.getElem?_eq_getElem h2) (List.getElem?_eq_getElem h3)
    by_cases hlevel : atoi argv[3] < LOG_DEBUG ∨ atoi argv[3] > LOG_FATAL
    · rw [if_pos hlevel] at h
      exact ⟨_, _, h⟩
    · rw [if_neg hlevel, if_pos hfit] at h
      exact ⟨_, _, h⟩

/-- C11, amended: on exactly `argc` tokens whose assembled message fits the
1024-byte buffer, `handle_log` returns, and every record it forwards has its
level in `0..4` and carries the token `argv[2]` unchanged as its tag (which may
be the empty string: the tag is not validated); the status returned with a
forwarded record is 0. -/
theorem handle_log_forwarded_fields (env : Env) (argc : Int) (argv : List String)
    (hargc : argc = argv.length)
    (hfit : messageLength (argv.drop 4) < MESSAGE_SIZE) :
    ∃ (status : Int) (trace : List Event),
      handle_log env argc argv = .ok (status, trace) ∧
      ∀ (level : Int) (tag msg : String), Event.externalLog level tag msg ∈ trace →
        LOG_DEBUG ≤ level ∧ level ≤ LOG_FATAL ∧ argv[2]? = some tag ∧ status = 0 := by
  subst hargc
  obtain ⟨status, trace, hrun⟩ := handle_log_returns env argv hfit
  exact ⟨status, trace, hrun, fun level tag msg hmem =>
    handle_log_fields_of_ok env _ argv status trace level tag msg hrun hmem⟩

theorem handle_log_forwarded_fields_witness :
    (∃ (status : Int) (trace : List Event),
      handle_log ⟨fun _ => "", 0, 0⟩ 6 ["azenith", "--log", "NET", "3", "link", "down"] =
        .ok (status, trace) ∧
      ∀ (level : Int) (tag msg : String), Event.externalLog level tag msg ∈ trace →
        LOG_DEBUG ≤ level ∧ level ≤ LOG_FATAL ∧
          ["azenith", "--log", "NET", "3", "link", "down"][2]? = some tag ∧ status = 0) ∧
    handle_log ⟨fun _ => "", 0, 0⟩ 6 ["azenith", "--log", "NET", "3", "link", "down"] =
      .ok (0, [.externalLog 3 "NET" "link down"]) :=
  ⟨handle_log_forwarded_fields ⟨fun _ => "", 0, 0⟩ 6
    ["azenith", "--log", "NET", "3", "link", "down"] rfl (by decide), rfl⟩

/-- C12, as stated, fails: with both collaborators reporting the failure status
1, an accepted `handle_profile` call and an accepted `handle_log` call still
return 0. -/
theorem collaborator_failure_counterexample :
    handle_profile ⟨fun _ => "0", 1, 1⟩ 3 ["azenith", "--profile", "1"] =
      .ok (0, [.propGet AI_PROP,
               .logZenith LOG_INFO "Applying Performance Profile via execute",
               .toast "Applying Performance Profile",
               .runProfiler .PERFORMANCE_PROFILE,
               .stdout "Applying Performance Profile\n"]) ∧
    handle_log ⟨fun _ => "0", 1, 1⟩ 5 ["azenith", "--log", "NET", "3", "x"] =
      .ok (0, [.externalLog 3 "NET" "x"]) :=
  ⟨rfl, rfl⟩

/-- C12, amended: the handlers do not look at what a collaborator reports.  When
the profiler reports a failure, every accepted `handle_profile` call still
returns 0 with its full trace (log, toast, profiler call, stdout line), and when
the logger reports a failure, every accepted `handle_log` call still returns 0
with its record forwarded; nothing is rolled back. -/
theorem collaborator_status_ignored (getprop : String → String) (ps ls : Int)
    (argc : Int) (argv : List String) (tok : String)
    (argcL : Int) (argvL : List String) (tagL lvL : String)
    (_hps : ps ≠ 0) (_hls : ls ≠ 0)
    (hargc : 3 ≤ argc) (hai : getprop AI_PROP ≠ "1")
    (htok : argv[2]? = some tok) (hval : tok = "1" ∨ tok = "2" ∨ tok = "3")
    (hargcL : argcL = argvL.length) (h5 : 5 ≤ argcL)
    (htag : argvL[2]? = some tagL) (hlv : argvL[3]? = some lvL)
    (hlo : LOG_DEBUG ≤ atoi lvL) (hhi : atoi lvL ≤ LOG_FATAL)
    (hfit : messageLength (argvL.drop 4) < MESSAGE_SIZE) :
    (∃ (msg text line : String) (mode : ProfileMode),
      handle_profile ⟨getprop, ps, ls⟩ argc argv =
        .ok (0, [.propGet AI_PROP, .logZenith LOG_INFO msg, .toast text,
                 .runProfiler mode, .stdout line])) ∧
    handle_log ⟨getprop, ps, ls⟩ argcL argvL =
      .ok (0, [.externalLog (atoi lvL) tagL (String.intercalate " " (argvL.drop 4))]) := by
  constructor
  · rcases hval with h | h | h <;> subst h
    · exact ⟨_, _, _, _, handle_profile_one ⟨getprop, ps, ls⟩ argc argv hargc hai htok⟩
    · exact ⟨_, _, _, _, handle_profile_two ⟨getprop, ps, ls⟩ argc argv hargc hai htok⟩
    · exact ⟨_, _, _, _, handle_profile_three ⟨getprop, ps, ls⟩ argc argv hargc hai htok⟩
  · subst hargcL
    have hlevel : ¬ (atoi lvL < LOG_DEBUG ∨ atoi lvL > LOG_FATAL) := by
      intro h; rcases h with h | h <;> omega
    rw [handle_log_eq ⟨getprop, ps, ls⟩ argvL tagL lvL (by omega) htag hlv, if_neg hlevel,
      if_pos hfit]

theorem collaborator_status_ignored_witness :
    (∃ (msg text line : String) (mode : ProfileMode),
      handle_profile ⟨fun _ => "0", 1, 1⟩ 3 ["azenith", "--profile", "2"] =
        .ok (0, [.propGet AI_PROP, .logZenith LOG_INFO msg, .toast text,
                 .runProfiler mode, .stdout line])) ∧
    handle_log ⟨fun _ => "0", 1, 1⟩ 6 ["azenith", "--log", "NET", "3", "link", "down"] =
      .ok (0, [.externalLog (atoi "3") "NET"
        (String.intercalate " " (List.drop 4 ["azenith", "--log", "NET", "3", "link", "down"]))]) :=
  collaborator_status_ignored (fun _ => "0") 1 1 3 ["azenith", "--profile", "2"] "2"
    6 ["azenith", "--log", "NET", "3", "link", "down"] "NET" "3"
    (by decide) (by decide) (by decide) (by decide) rfl (Or.inr (Or.inl rfl))
    rfl (by decide) rfl rfl (by decide) (by decide) (by decide)

/-- A call of `handle_profile` on exactly `argc` tokens that is not accepted
returns 1 without a profiler call. -/
theorem handle_profile_reject (env : Env) (argc : Int) (argv : List String)
    (hargc : argc = argv.length)
    (hno : ¬ (3 ≤ argc ∧ env.getprop AI_PROP ≠ "1" ∧
      (argv[2]? = some "1" ∨ argv[2]? = some "2" ∨ argv[2]? = some "3"))) :
    ∃ trace, handle_profile env argc argv = .ok (1, trace) ∧
      ∀ mode, Event.runProfiler mode ∉ trace := by
  by_cases h3 : argc < 3
  · exact ⟨_, by simp [handle_profile, h3]; rfl, by simp⟩
  · by_cases hai : env.getprop AI_PROP = "1"
    · exact ⟨_, by simp [handle_profile, h3, strcmp_eq_zero_iff, hai]; rfl, by simp⟩
    · have hlen : 2 < argv.length := by omega
      have htok : argv[2]? = some argv[2] := List.getElem?_eq_getElem hlen
      have hbad : ¬ (argv[2]? = some "1" ∨ argv[2]? = some "2" ∨ argv[2]? = some "3") := by
        intro h; exact hno ⟨by omega, hai, h⟩
      rw [htok] at hbad
      simp only [Option.some.injEq, not_or] at hbad
      exact ⟨_, by
        simp [handle_profile, h3, strcmp_eq_zero_iff, hai, htok, hbad.1, hbad.2.1, hbad.2.2]
        rfl, by simp⟩

/-- C16: on exactly `argc` tokens, `handle_profile` applies the profile and
returns 0 whenever `argc ≥ 3`, the property is any string other than `"1"` and
`argv[2]` is `"1"`, `"2"` or `"3"`; in every other case it returns 1 and the
profiler is not called.  Hence it returns 0 exactly under these three
conditions. -/
theorem handle_profile_zero_iff (env : Env) (argc : Int) (argv : List String)
    (hargc : argc = argv.length) :
    ((3 ≤ argc ∧ env.getprop AI_PROP ≠ "1" ∧
        (argv[2]? = some "1" ∨ argv[2]? = some "2" ∨ argv[2]? = some "3")) →
      ∃ trace mode, handle_profile env argc argv = .ok (0, trace) ∧
        Event.runProfiler mode ∈ trace) ∧
    (¬ (3 ≤ argc ∧ env.getprop AI_PROP ≠ "1" ∧
        (argv[2]? = some "1" ∨ argv[2]? = some "2" ∨ argv[2]? = some "3")) →
      ∃ trace, handle_profile env argc argv = .ok (1, trace) ∧
        ∀ mode, Event.runProfiler mode ∉ trace) ∧
    ((∃ trace, handle_profile env argc argv = .ok (0, trace)) ↔
      (3 ≤ argc ∧ env.getprop AI_PROP ≠ "1" ∧
        (argv[2]? = some "1" ∨ argv[2]? = some "2" ∨ argv[2]? = some "3"))) := by
  have hyes : (3 ≤ argc ∧ env.getprop AI_PROP ≠ "1" ∧
        (argv[2]? = some "1" ∨ argv[2]? = some "2" ∨ argv[2]? = some "3")) →
      ∃ trace mode, handle_profile env argc argv = .ok (0, trace) ∧
        Event.runProfiler mode ∈ trace := by
    rintro ⟨h3, hai, h | h | h⟩
    · exact ⟨_, .PERFORMANCE_PROFILE, handle_profile_one env argc argv h3 hai h, by simp⟩
    · exact ⟨_, .BALANCED_PROFILE, handle_profile_two env argc argv h3 hai h, by simp⟩
    · exact ⟨_, .ECO_MODE, handle_profile_three env argc argv h3 hai h, by simp⟩
  refine ⟨hyes, handle_profile_reject env argc argv hargc, ?_, ?_⟩
  · rintro ⟨trace, h0⟩
    by_contra hno
    obtain ⟨trace1, h1, _⟩ := handle_profile_reject env argc argv hargc hno
    rw [h0] at h1
    simp at h1
  · intro hc
    obtain ⟨trace, _, h0, _⟩ := hyes hc
    exact ⟨trace, h0⟩

theorem handle_profile_zero_iff_witness :
    (∃ trace mode,
      handle_profile ⟨fun _ => " 1", 0, 0⟩ 3 ["azenith", "--profile", "3"] = .ok (0, trace) ∧
        Event.runProfiler mode ∈ trace) ∧
    (∃ trace,
      handle_profile ⟨fun _ => "11", 0, 0⟩ 3 ["azenith", "--profile", "4"] = .ok (1, trace) ∧
        ∀ mode, Event.runProfiler mode ∉ trace) :=
  ⟨(handle_profile_zero_iff ⟨fun _ => " 1", 0, 0⟩ 3 ["azenith", "--profile", "3"] rfl).1
      ⟨by decide, by decide, Or.inr (Or.inr rfl)⟩,
    (handle_profile_zero_iff ⟨fun _ => "11", 0, 0⟩ 3 ["azenith", "--profile", "4"] rfl).2.1
      (by decide)⟩

/-! ## `print_help` -/

/-- C13: `print_help` writes to stdout only; its text has the three command
lines (`--run`, `--profile <1|2|3>`, `--log <TAG> <LEVEL> <MESSAGE>`), the
profile legend (1 = Performance, 2 = Balanced, 3 = Eco Mode) and the level
legend (0=DEBUG .. 4=FATAL).  The level legend is, after its indentation, the
line `handle_log` prints on a usage error, and the profile names of the legend
are the ones in the toasts of `handle_profile` for the tokens 1, 2, 3. -/
theorem print_help_legends (env : Env) (argc : Int) (argv : List String)
    (argcL : Int) (argvL : List String)
    (hargc : 3 ≤ argc) (hai : env.getprop AI_PROP ≠ "1") (hL : argcL < 5) :
    (∀ e ∈ print_help, ∃ s, e = Event.stdout s) ∧
    (Event.stdout "  sys.azenith-service --run\n" ∈ print_help ∧
      Event.stdout "  sys.azenith-service --profile <1|2|3>\n" ∈ print_help ∧
      Event.stdout "  sys.azenith-service --log <TAG> <LEVEL> <MESSAGE>\n" ∈ print_help) ∧
    (Event.stdout ("      1 = " ++ "Performance" ++ "\n") ∈ print_help ∧
      Event.stdout ("      2 = " ++ "Balanced" ++ "\n") ∈ print_help ∧
      Event.stdout ("      3 = " ++ "Eco Mode" ++ "\n\n") ∈ print_help) ∧
    Event.stdout ("      " ++ "Levels: 0=DEBUG, 1=INFO, 2=WARN, 3=ERROR, 4=FATAL\n") ∈
      print_help ∧
    (∃ usage, handle_log env argcL argvL =
      .ok (1, [.stderr usage,
               .stderr "Levels: 0=DEBUG, 1=INFO, 2=WARN, 3=ERROR, 4=FATAL\n"])) ∧
    (argv[2]? = some "1" → ∃ trace, handle_profile env argc argv = .ok (0, trace) ∧
      Event.toast ("Applying " ++ "Performance" ++ " Profile") ∈ trace) ∧
    (argv[2]? = some "2" → ∃ trace, handle_profile env argc argv = .ok (0, trace) ∧
      Event.toast ("Applying " ++ "Balanced" ++ " Profile") ∈ trace) ∧
    (argv[2]? = some "3" → ∃ trace, handle_profile env argc argv = .ok (0, trace) ∧
      Event.toast ("Applying " ++ "Eco Mode") ∈ trace) := by
  refine ⟨?_, ⟨?_, ?_, ?_⟩, ⟨?_, ?_, ?_⟩, ?_, ?_, ?_, ?_, ?_⟩
  · intro e he
    simp only [print_help, List.mem_cons, List.mem_singleton, List.not_mem_nil, or_false] at he
    rcases he with h | h | h | h | h | h | h | h | h | h | h | h | h <;> exact ⟨_, h⟩
  · decide
  · decide
  · decide
  · decide
  · decide
  · decide
  · decide
  · exact ⟨_, by simp [handle_log, hL]; rfl⟩
  · intro h
    exact ⟨_, handle_profile_one env argc argv hargc hai h, by decide⟩
  · intro h
    exact ⟨_, handle_profile_two env argc argv hargc hai h, by decide⟩
  · intro h
    exact ⟨_, handle_profile_three env argc argv hargc hai h, by decide⟩

theorem print_help_legends_witness :
    (∃ usage, handle_log ⟨fun _ => "", 0, 0⟩ 2 ["azenith", "--log"] =
      .ok (1, [.stderr usage,
               .stderr "Levels: 0=DEBUG, 1=INFO, 2=WARN, 3=ERROR, 4=FATAL\n"])) ∧
    Event.stdout "      Levels: 0=DEBUG, 1=INFO, 2=WARN, 3=ERROR, 4=FATAL\n" ∈ print_help ∧
    (∃ trace, handle_profile ⟨fun _ => "", 0, 0⟩ 3 ["azenith", "--profile", "3"] =
        .ok (0, trace) ∧ Event.toast "Applying Eco Mode" ∈ trace) :=
  ⟨(print_help_legends ⟨fun _ => "", 0, 0⟩ 3 ["azenith", "--profile", "3"] 2
      ["azenith", "--log"] (by decide) (by decide) (by decide)).2.2.2.2.1,
    (print_help_legends ⟨fun _ => "", 0, 0⟩ 3 ["azenith", "--profile", "3"] 2
      ["azenith", "--log"] (by decide) (by decide) (by decide)).2.2.2.1,
    (print_help_legends ⟨fun _ => "", 0, 0⟩ 3 ["azenith", "--profile", "3"] 2
      ["azenith", "--log"] (by decide) (by decide) (by decide)).2.2.2.2.2.2.2 rfl⟩

/-! ## Splitting the message -/

theorem intercalate_data :
    ∀ (toks : List String),
      (String.intercalate " " toks).data = [' '].intercalate (toks.map String.data)
  | [] => rfl
  | [t] => by simp [String.intercalate, String.intercalate.go, List.intercalate]
  | t :: u :: ts => by
    rw [intercalate_cons_cons, String.data_append, String.data_append,
      intercalate_data (u :: ts)]
    simp [List.intercalate]

/-- Splitting at the spaces undoes the joining of tokens that hold no space. -/
theorem split_intercalate (toks : List String) (hne : toks ≠ [])
    (hnosp : ∀ t ∈ toks, ' ' ∉ t.data) :
    (String.intercalate " " toks).split (fun c => c == ' ') = toks := by
  have hx : ∀ l ∈ toks.map String.data, ' ' ∉ l := by
    intro l hl
    obtain ⟨t, ht, rfl⟩ := List.mem_map.mp hl
    exact hnosp t ht
  have hls : toks.map String.data ≠ [] := by simpa using hne
  have hsplit := List.splitOn_intercalate (toks.map String.data) ' ' hx hls
  rw [String.split_of_valid, intercalate_data]
  rw [List.splitOn] at hsplit
  rw [hsplit, List.map_map]
  have hid : (String.mk ∘ String.data) = id := by
    funext t; rfl
  rw [hid, List.map_id]

/-- C14: for an accepted invocation of `handle_log` whose message tokens
`argv[4..]` hold no space character, splitting the forwarded message at the
single spaces gives back exactly these tokens in their order. -/
theorem handle_log_message_roundtrip (env : Env) (argc : Int) (argv : List String)
    (lv : String) (hargc : argc = argv.length) (h5 : 5 ≤ argc)
    (hlv : argv[3]? = some lv) (hlo : LOG_DEBUG ≤ atoi lv) (hhi : atoi lv ≤ LOG_FATAL)
    (hfit : messageLength (argv.drop 4) < MESSAGE_SIZE)
    (hnosp : ∀ t ∈ argv.drop 4, ' ' ∉ t.data) :
    ∃ (level : Int) (tag msg : String),
      handle_log env argc argv = .ok (0, [.externalLog level tag msg]) ∧
      msg.split (fun c => c == ' ') = argv.drop 4 := by
  subst hargc
  have hlen : 2 < argv.length := by omega
  have hlevel : ¬ (atoi lv < LOG_DEBUG ∨ atoi lv > LOG_FATAL) := by
    intro h; rcases h with h | h <;> omega
  have hne : argv.drop 4 ≠ [] := by
    simp [List.drop_eq_nil_iff]; omega
  refine ⟨atoi lv, argv[2], String.intercalate " " (argv.drop 4), ?_,
    split_intercalate _ hne hnosp⟩
  rw [handle_log_eq env argv argv[2] lv (by omega) (List.getElem?_eq_getElem hlen) hlv,
    if_neg hlevel, if_pos hfit]

theorem handle_log_message_roundtrip_witness :
    ∃ (level : Int) (tag msg : String),
      handle_log ⟨fun _ => "", 0, 0⟩ 7 ["azenith", "--log", "T", "1", "a", "b", "c"] =
        .ok (0, [.externalLog level tag msg]) ∧
      msg.split (fun c => c == ' ') = List.drop 4 ["azenith", "--log", "T", "1", "a", "b", "c"] :=
  handle_log_message_roundtrip ⟨fun _ => "", 0, 0⟩ 7
    ["azenith", "--log", "T", "1", "a", "b", "c"] "1" rfl (by decide) rfl (by decide)
    (by decide) (by decide) (by decide)

/-! ## Lenient conversion of the level token -/

/-- A token without a number converts to 0. -/
theorem atoi_nonNumeric (s : String) (h : nonNumeric s = true) : atoi s = 0 := by
  have hz : strtol s = 0 := by
    unfold nonNumeric at h
    unfold strtol
    cases hd : s.data.dropWhile isspace with
    | nil => rfl
    | cons c cs =>
      rw [hd] at h
      simp only [] at h ⊢
      by_cases hm : c = '-'
      · rw [if_pos hm]
        rw [if_pos (Or.inl hm)] at h
        cases cs with
        | nil => rfl
        | cons d ds =>
          simp only [Bool.not_eq_true'] at h
          simp [digitsValue, h, LONG_MIN]
      · rw [if_neg hm]
        by_cases hp : c = '+'
        · rw [if_pos hp]
          rw [if_pos (Or.inr hp)] at h
          cases cs with
          | nil => rfl
          | cons d ds =>
            simp only [Bool.not_eq_true'] at h
            simp [digitsValue, h, LONG_MAX]
        · rw [if_neg hp]
          rw [if_neg (by intro hc; rcases hc with hc | hc <;> contradiction)] at h
          simp only [Bool.not_eq_true'] at h
          simp [digitsValue, h, LONG_MAX]
  rw [atoi, hz]
  rfl

/-- What `handle_log` does on exactly `argc ≥ 5` tokens once the level is known
to convert into `0..4` and the message fits the buffer. -/
theorem handle_log_accept (env : Env) (argv : List String) (tag lv : String) (n : Int)
    (h5 : 5 ≤ argv.length) (htag : argv[2]? = some tag) (hlv : argv[3]? = some lv)
    (hn : atoi lv = n) (h0 : 0 ≤ n) (h4 : n ≤ 4)
    (hfit : messageLength (argv.drop 4) < MESSAGE_SIZE) :
    handle_log env (argv.length : Int) argv =
      .ok (0, [.externalLog n tag (String.intercalate " " (argv.drop 4))]) := by
  have hlevel : ¬ (atoi lv < LOG_DEBUG ∨ atoi lv > LOG_FATAL) := by
    rw [hn]; simp only [LOG_DEBUG, LOG_FATAL]; omega
  rw [handle_log_eq env argv tag lv h5 htag hlv, if_neg hlevel, if_pos hfit, hn]

/-- What `handle_log` does on exactly `argc ≥ 5` tokens once the level is known
to convert into `0..4` and the message does not fit the buffer. -/
theorem handle_log_overrun (env : Env) (argv : List String) (tag lv : String) (n : Int)
    (h5 : 5 ≤ argv.length) (htag : argv[2]? = some tag) (hlv : argv[3]? = some lv)
    (hn : atoi lv = n) (h0 : 0 ≤ n) (h4 : n ≤ 4)
    (hbig : MESSAGE_SIZE ≤ messageLength (argv.drop 4)) :
    handle_log env (argv.length : Int) argv = .error .bufferOverflow := by
  have hlevel : ¬ (atoi lv < LOG_DEBUG ∨ atoi lv > LOG_FATAL) := by
    rw [hn]; simp only [LOG_DEBUG, LOG_FATAL]; omega
  have hfit : ¬ (messageLength (argv.drop 4) < MESSAGE_SIZE) := by omega
  rw [handle_log_eq env argv tag lv h5 htag hlv, if_neg hlevel, if_neg hfit]

/-- C15: the lenient conversion is followed by the unchecked `strcat` loop.  With
the level token "abc", which holds no number and converts to 0, and a message
of 1100 bytes, the handler does not forward a record at level 0 and return 0:
the loop writes past `message[1024]`. -/
theorem handle_log_lenient_level_overrun :
    nonNumeric "abc" = true ∧ atoi "abc" = 0 ∧
    messageLength [String.mk (List.replicate 1100 'a')] = 1100 ∧
    handle_log ⟨fun _ => "", 0, 0⟩ 5
      ["azenith", "--log", "NET", "abc", String.mk (List.replicate 1100 'a')] =
      .error .bufferOverflow := by
  have hlen : messageLength [String.mk (List.replicate 1100 'a')] = 1100 := by
    rw [messageLength_singleton, strlen_replicate 1100 'a' (by decide)]
  refine ⟨by decide, by decide, hlen, ?_⟩
  exact handle_log_overrun ⟨fun _ => "", 0, 0⟩
    ["azenith", "--log", "NET", "abc", String.mk (List.replicate 1100 'a')] "NET" "abc" 0
    (by decide) rfl rfl (by decide) (by decide) (by decide)
    (by
      rw [List.drop, List.drop, List.drop, List.drop, List.drop, hlen]
      decide)

/-- The lenient conversion when the message fits: for exactly `argc ≥ 5` tokens
whose level token holds no number (after optional white space and sign it does
not go on with a decimal digit) and whose message fits the buffer, the token converts to 0, no parse error is
signalled, the record is forwarded at level 0 (DEBUG) and the handler returns
0. -/
theorem handle_log_lenient_level (env : Env) (argc : Int) (argv : List String)
    (tag lv : String) (hargc : argc = argv.length) (h5 : 5 ≤ argc)
    (htag : argv[2]? = some tag) (hlv : argv[3]? = some lv)
    (hnn : nonNumeric lv = true)
    (hfit : messageLength (argv.drop 4) < MESSAGE_SIZE) :
    atoi lv = 0 ∧
    handle_log env argc argv =
      .ok (0, [.externalLog LOG_DEBUG tag (String.intercalate " " (argv.drop 4))]) := by
  subst hargc
  have hz := atoi_nonNumeric lv hnn
  exact ⟨hz, handle_log_accept env argv tag lv 0 (by omega) htag hlv hz (by decide)
    (by decide) hfit⟩

theorem handle_log_lenient_level_witness :
    (atoi "ERROR" = 0 ∧
      handle_log ⟨fun _ => "", 0, 0⟩ 5 ["azenith", "--log", "NET", "ERROR", "x"] =
        .ok (0, [.externalLog LOG_DEBUG "NET"
          (String.intercalate " " (List.drop 4 ["azenith", "--log", "NET", "ERROR", "x"]))])) ∧
    (atoi "" = 0 ∧
      handle_log ⟨fun _ => "", 0, 0⟩ 5 ["azenith", "--log", "NET", "", "x"] =
        .ok (0, [.externalLog LOG_DEBUG "NET"
          (String.intercalate " " (List.drop 4 ["azenith", "--log", "NET", "", "x"]))])) :=
  ⟨handle_log_lenient_level ⟨fun _ => "", 0, 0⟩ 5 ["azenith", "--log", "NET", "ERROR", "x"]
      "NET" "ERROR" rfl (by decide) rfl rfl (by decide) (by decide),
    handle_log_lenient_level ⟨fun _ => "", 0, 0⟩ 5 ["azenith", "--log", "NET", "", "x"]
      "NET" "" rfl (by decide) rfl rfl (by decide) (by decide)⟩

theorem dropWhile_isspace_append (ws l : List Char)
    (hws : ∀ c ∈ ws, isspace c = true) :
    (ws ++ l).dropWhile isspace = l.dropWhile isspace := by
  induction ws with
  | nil => rfl
  | cons c cs ih =>
    have hc : isspace c = true := hws c (by simp)
    rw [List.cons_append, List.dropWhile_cons_of_pos hc]
    exact ih (fun d hd => hws d (by simp [hd]))

theorem digitsValue_stop (rest : List Char) (acc : Nat)
    (hrest : ∀ c, rest.head? = some c → isdigit c = false) :
    digitsValue rest acc = acc := by
  cases rest with
  | nil => rfl
  | cons c cs =>
    have hc : isdigit c = false := hrest c rfl
    simp [digitsValue, hc]

/-- The conversion reads white space, a sign and the digits that follow, and
stops at the first character that is not a digit: the text behind the digits
has no influence. -/
theorem atoi_leading_number (s : String) (ws sign digits rest : List Char) (n : Int)
    (hshape : s.data = ws ++ (sign ++ (digits ++ rest)))
    (hws : ∀ c ∈ ws, isspace c = true)
    (hsign : sign = [] ∨ sign = ['+'] ∨ sign = ['-'])
    (hne : digits ≠ []) (hdig : ∀ c ∈ digits, isdigit c = true)
    (hrest : ∀ c, rest.head? = some c → isdigit c = false)
    (hn : n = if sign = ['-'] then
        -((digits.foldl (fun a c => 10 * a + (c.toNat - 48)) 0 : Nat) : Int)
      else ((digits.foldl (fun a c => 10 * a + (c.toNat - 48)) 0 : Nat) : Int))
    (h0 : 0 ≤ n) (h4 : n ≤ 4) : atoi s = n := by
  have hval : digitsValue (digits ++ rest) 0 =
      digits.foldl (fun a c => 10 * a + (c.toNat - 48)) 0 := by
    rw [digitsValue_append digits rest hdig 0, digitsValue_stop rest _ hrest]
  obtain ⟨d, ds, hd⟩ : ∃ d ds, digits = d :: ds := by
    cases digits with
    | nil => exact absurd rfl hne
    | cons d ds => exact ⟨d, ds, rfl⟩
  have hdd : isdigit d = true := hdig d (by simp [hd])
  obtain ⟨hdsp, hdm, hdp⟩ := isdigit_not_special d hdd
  have hstr : strtol s = n := by
    unfold strtol
    rw [hshape, dropWhile_isspace_append ws _ hws]
    rcases hsign with hs | hs | hs
    · subst hs
      rw [if_neg (by decide)] at hn
      rw [List.nil_append, hd, List.cons_append,
        List.dropWhile_cons_of_neg (by simp [hdsp])]
      simp only [hdm, hdp, if_false]
      rw [← List.cons_append, ← hd, hval, hn, LONG_MAX]
      rw [hn] at h4
      apply min_eq_right
      omega
    · subst hs
      rw [if_neg (by decide)] at hn
      rw [List.singleton_append, List.dropWhile_cons_of_neg (by decide)]
      simp only [if_neg (show ¬ ('+' = '-') by decide), if_true]
      rw [hval, hn, LONG_MAX]
      rw [hn] at h4
      apply min_eq_right
      omega
    · subst hs
      rw [if_pos rfl] at hn
      rw [List.singleton_append, List.dropWhile_cons_of_neg (by decide)]
      simp only [if_true]
      rw [hval, hn, LONG_MIN]
      rw [hn] at h0
      apply max_eq_right
      omega
  rw [atoi, hstr, longToInt]
  omega

/-- C17: the conversion of the leading number is followed by the unchecked
`strcat` loop.  With the level token "3abc", whose leading number is 3, and a
message of 1100 bytes (two tokens of 1000 and 99 bytes and their separator), the
handler does not forward a record at level 3 and return 0: the loop writes past
`message[1024]`. -/
theorem handle_log_leading_number_overrun :
    atoi "3abc" = 3 ∧
    messageLength [String.mk (List.replicate 1000 'p'),
      String.mk (List.replicate 99 'q')] = 1100 ∧
    handle_log ⟨fun _ => "", 0, 0⟩ 6
      ["azenith", "--log", "NET", "3abc", String.mk (List.replicate 1000 'p'),
        String.mk (List.replicate 99 'q')] =
      .error .bufferOverflow := by
  have hlen : messageLength [String.mk (List.replicate 1000 'p'),
      String.mk (List.replicate 99 'q')] = 1100 := by
    rw [messageLength_pair, strlen_replicate 1000 'p' (by decide),
      strlen_replicate 99 'q' (by decide)]
  refine ⟨by decide, hlen, ?_⟩
  exact handle_log_overrun ⟨fun _ => "", 0, 0⟩
    ["azenith", "--log", "NET", "3abc", String.mk (List.replicate 1000 'p'),
      String.mk (List.replicate 99 'q')] "NET" "3abc" 3
    (by decide) rfl rfl (by decide) (by decide) (by decide)
    (by
      rw [List.drop, List.drop, List.drop, List.drop, List.drop, hlen]
      decide)

/-- The leading number when the message fits: for exactly `argc ≥ 5` tokens
whose level token is made of
optional white space, an optional sign, a non-empty run of decimal digits
denoting (with the sign) an integer `n` in `0..4`, and then any text that does
not start with a digit, and whose message fits the buffer: the invocation is
accepted and the record is forwarded with level `n`; the text behind the number
is never rejected. -/
theorem handle_log_leading_number (env : Env) (argc : Int) (argv : List String)
    (tag lv : String) (ws sign digits rest : List Char) (n : Int)
    (hargc : argc = argv.length) (h5 : 5 ≤ argc)
    (htag : argv[2]? = some tag) (hlv : argv[3]? = some lv)
    (hshape : lv.data = ws ++ (sign ++ (digits ++ rest)))
    (hws : ∀ c ∈ ws, isspace c = true)
    (hsign : sign = [] ∨ sign = ['+'] ∨ sign = ['-'])
    (hne : digits ≠ []) (hdig : ∀ c ∈ digits, isdigit c = true)
    (hrest : ∀ c, rest.head? = some c → isdigit c = false)
    (hn : n = if sign = ['-'] then
        -((digits.foldl (fun a c => 10 * a + (c.toNat - 48)) 0 : Nat) : Int)
      else ((digits.foldl (fun a c => 10 * a + (c.toNat - 48)) 0 : Nat) : Int))
    (h0 : 0 ≤ n) (h4 : n ≤ 4)
    (hfit : messageLength (argv.drop 4) < MESSAGE_SIZE) :
    handle_log env argc argv =
      .ok (0, [.externalLog n tag (String.intercalate " " (argv.drop 4))]) := by
  subst hargc
  have hatoi := atoi_leading_number lv ws sign digits rest n hshape hws hsign hne hdig
    hrest hn h0 h4
  exact handle_log_accept env argv tag lv n (by omega) htag hlv hatoi h0 h4 hfit

theorem handle_log_leading_number_witness :
    handle_log ⟨fun _ => "", 0, 0⟩ 5 ["azenith", "--log", "NET", " +4.9", "x"] =
      .ok (0, [.externalLog 4 "NET"
        (String.intercalate " " (List.drop 4 ["azenith", "--log", "NET", " +4.9", "x"]))]) ∧
    handle_log ⟨fun _ => "", 0, 0⟩ 5 ["azenith", "--log", "NET", "0x10", "x"] =
      .ok (0, [.externalLog 0 "NET"
        (String.intercalate " " (List.drop 4 ["azenith", "--log", "NET", "0x10", "x"]))]) :=
  ⟨handle_log_leading_number ⟨fun _ => "", 0, 0⟩ 5 ["azenith", "--log", "NET", " +4.9", "x"]
      "NET" " +4.9" [' '] ['+'] ['4'] ['.', '9'] 4 rfl (by decide) rfl rfl rfl
      (by decide) (by decide) (by decide) (by decide) (by decide) (by decide) (by decide)
      (by decide) (by decide),
    handle_log_leading_number ⟨fun _ => "", 0, 0⟩ 5 ["azenith", "--log", "NET", "0x10", "x"]
      "NET" "0x10" [] [] ['0'] ['x', '1', '0'] 0 rfl (by decide) rfl rfl rfl
      (by decide) (by decide) (by decide) (by decide) (by decide) (by decide) (by decide)
      (by decide) (by decide)⟩

/-! ## The buffer during the loop -/

theorem intercalate_cons (t : String) (rest : List String) :
    String.intercalate " " (t :: rest) =
      t ++ (if rest ≠ [] then " " else "") ++ String.intercalate " " rest := by
  cases rest with
  | nil => simp [String.intercalate, String.intercalate.go]
  | cons u ts => rw [intercalate_cons_cons]; simp

theorem bufferAfter_zero (toks : List String) : bufferAfter toks 0 = "" := by
  simp [bufferAfter, String.intercalate]

theorem bufferAfter_cons (t : String) (rest : List String) (j : Nat) :
    bufferAfter (t :: rest) (j + 1) =
      t ++ (if rest ≠ [] then " " else "") ++ bufferAfter rest j := by
  unfold bufferAfter
  rw [List.take_succ_cons, intercalate_cons]
  cases rest with
  | nil => simp
  | cons u ts =>
    cases j with
    | zero => simp [String.intercalate]
    | succ i => simp [String.append_assoc]

/-- One iteration of the loop, when the rest of the message still fits: the token
is appended, and a separator after it when another token follows. -/
theorem handle_log_loop_step (argv : List String) (fuel k : Nat) (message : String)
    (hk : k < argv.length)
    (hfit : strlen message + strlen (String.intercalate " " (argv.drop k)) + 1 ≤
      MESSAGE_SIZE) :
    handle_log_loop (argv.length : Int) argv (fuel + 1) (k : Int) message =
      handle_log_loop (argv.length : Int) argv fuel ((k + 1 : Nat) : Int)
        (message ++ argv[k] ++ (if argv.drop (k + 1) ≠ [] then " " else "")) ∧
    strlen (message ++ argv[k] ++ (if argv.drop (k + 1) ≠ [] then " " else "")) +
      strlen (String.intercalate " " (argv.drop (k + 1))) + 1 ≤ MESSAGE_SIZE := by
  have hlt : ((k : Int) < (argv.length : Int)) := by exact_mod_cast hk
  have hstep : ((k : Int) + 1) = ((k + 1 : Nat) : Int) := by push_cast; rfl
  rw [List.drop_eq_getElem_cons hk, intercalate_cons, strlen_append, strlen_append] at hfit
  simp only [handle_log_loop]
  rw [if_pos hlt, Int.toNat_ofNat, List.getElem?_eq_getElem hk]
  have hcat : strcat MESSAGE_SIZE message argv[k] = .ok (message ++ argv[k]) := by
    have : strlen message + strlen argv[k] + 1 ≤ MESSAGE_SIZE := by omega
    simp [strcat, this]
  simp only [hcat]
  by_cases hlast : k + 1 < argv.length
  · have hne : (k : Int) ≠ (argv.length : Int) - 1 := by omega
    have hrest : List.drop (k + 1) argv ≠ [] := by
      simp [List.drop_eq_nil_iff]; omega
    rw [if_pos hrest, strlen_space] at hfit
    have hsep : strcat MESSAGE_SIZE (message ++ argv[k]) " " =
        .ok (message ++ argv[k] ++ " ") := by
      have : strlen (message ++ argv[k]) + strlen " " + 1 ≤ MESSAGE_SIZE := by
        rw [strlen_append, strlen_space]; omega
      simp [strcat, this]
    rw [if_pos hne, hsep, if_pos hrest, hstep]
    refine ⟨rfl, ?_⟩
    rw [strlen_append, strlen_append, strlen_space]
    omega
  · have hne : ¬ ((k : Int) ≠ (argv.length : Int) - 1) := by omega
    have hrest : ¬ (List.drop (k + 1) argv ≠ []) := by
      simp [List.drop_eq_nil_iff]; omega
    rw [if_neg hrest, strlen_empty] at hfit
    rw [if_neg hne, if_neg hrest, hstep, String.append_empty]
    refine ⟨rfl, ?_⟩
    rw [strlen_append]
    omega

/-- The state of the loop after `j` more iterations, when the rest of the
message fits the buffer. -/
theorem handle_log_loop_after (argv : List String) :
    ∀ (j fuel k : Nat) (message : String), k + j ≤ argv.length → j ≤ fuel →
      strlen message + strlen (String.intercalate " " (argv.drop k)) + 1 ≤ MESSAGE_SIZE →
      handle_log_loop (argv.length : Int) argv fuel (k : Int) message =
        handle_log_loop (argv.length : Int) argv (fuel - j) ((k + j : Nat) : Int)
          (message ++ bufferAfter (argv.drop k) j)
  | 0, fuel, k, message, _, _, _ => by
    rw [bufferAfter_zero]
    simp
  | j + 1, 0, k, message, _, hf, _ => by omega
  | j + 1, fuel + 1, k, message, hk, hf, hfit => by
    have hk2 : k < argv.length := by omega
    obtain ⟨hstep, hfit2⟩ := handle_log_loop_step argv fuel k message hk2 hfit
    rw [hstep, handle_log_loop_after argv j fuel (k + 1) _ (by omega) (by omega) hfit2]
    rw [List.drop_eq_getElem_cons hk2, bufferAfter_cons]
    have hidx : k + 1 + j = k + (j + 1) := by omega
    have hfuel : fuel + 1 - (j + 1) = fuel - j := by omega
    rw [hidx, hfuel]
    simp [String.append_assoc]

/-- With at most as many tests of its condition as iterations left, the loop
does not come to its end. -/
theorem handle_log_loop_short (argv : List String) :
    ∀ (fuel k : Nat) (message : String), k ≤ argv.length → fuel ≤ argv.length - k →
      strlen message + strlen (String.intercalate " " (argv.drop k)) + 1 ≤ MESSAGE_SIZE →
      handle_log_loop (argv.length : Int) argv fuel (k : Int) message = .error .outOfFuel
  | 0, _, _, _, _, _ => rfl
  | fuel + 1, k, message, hk, hf, hfit => by
    have hk2 : k < argv.length := by omega
    obtain ⟨hstep, hfit2⟩ := handle_log_loop_step argv fuel k message hk2 hfit
    rw [hstep]
    exact handle_log_loop_short argv fuel (k + 1) _ (by omega) (by omega) hfit2

theorem sum_strlen_take_le (toks : List String) (j : Nat) :
    ((toks.take j).map strlen).sum ≤ (toks.map strlen).sum := by
  have h := congrArg (fun l => (List.map strlen l).sum) (List.take_append_drop j toks)
  simp only [List.map_append, List.sum_append] at h
  omega

/-- Length of the buffer after `j` iterations: the bytes of the `j` tokens
appended plus one per separator appended, which is `j` while a token is still to
come and `j - 1` at the end. -/
theorem strlen_bufferAfter (toks : List String) (j : Nat) (hj : j ≤ toks.length) :
    strlen (bufferAfter toks j) =
      ((toks.take j).map strlen).sum + (if j < toks.length then j else j - 1) := by
  unfold bufferAfter
  rw [strlen_append, strlen_intercalate, messageLength, List.length_take,
    Nat.min_eq_left hj]
  by_cases hlt : j < toks.length
  · by_cases hpos : 0 < j
    · rw [if_pos ⟨hpos, hlt⟩, if_pos hlt, strlen_space]; omega
    · rw [if_neg (fun h => hpos h.1), if_pos hlt, strlen_empty]; omega
  · rw [if_neg (fun h => hlt h.2), if_neg hlt, strlen_empty]; omega

/-- C18: on exactly `argc ≥ 5` tokens whose message (token bytes plus one
separator per gap) has at most 1023 bytes, the loop of `handle_log` after `j`
iterations holds the first `j` message tokens with the separators appended so
far, a string of (sum of their lengths) + (separators so far) bytes that fits
the buffer with its terminator; no `strcat` writes past the buffer; the loop
ends after exactly `argc - 4` iterations (it needs `argc - 4` successful tests
of its condition and the final failing one), and the final message has (sum of
the token lengths) + (`argc - 5`) bytes. -/
theorem handle_log_buffer_bound (argc : Int) (argv : List String)
    (hargc : argc = argv.length) (h5 : 5 ≤ argc)
    (hfit : messageLength (argv.drop 4) ≤ 1023) :
    (∀ j fuel : Nat, j ≤ (argv.drop 4).length → j ≤ fuel →
      handle_log_loop argc argv fuel 4 "" =
        handle_log_loop argc argv (fuel - j) ((4 + j : Nat) : Int)
          (bufferAfter (argv.drop 4) j) ∧
      strlen (bufferAfter (argv.drop 4) j) =
        (((argv.drop 4).take j).map strlen).sum +
          (if j < (argv.drop 4).length then j else j - 1) ∧
      strlen (bufferAfter (argv.drop 4) j) + 1 ≤ MESSAGE_SIZE) ∧
    (∀ fuel : Nat, handle_log_loop argc argv fuel 4 "" =
      if (argc - 4).toNat < fuel then .ok (String.intercalate " " (argv.drop 4))
      else .error .outOfFuel) ∧
    strlen (String.intercalate " " (argv.drop 4)) =
      ((argv.drop 4).map strlen).sum + (argc - 5).toNat ∧
    strlen (String.intercalate " " (argv.drop 4)) + 1 ≤ MESSAGE_SIZE := by
  subst hargc
  have h4 : (4 : Int) = ((4 : Nat) : Int) := rfl
  have hlen : (argv.drop 4).length = argv.length - 4 := List.length_drop 4 argv
  have hfit0 : strlen "" + strlen (String.intercalate " " (argv.drop 4)) + 1 ≤
      MESSAGE_SIZE := by
    rw [strlen_empty, strlen_intercalate]
    simp only [MESSAGE_SIZE]
    omega
  have hmsg : messageLength (argv.drop 4) =
      ((argv.drop 4).map strlen).sum + (argv.length - 5) := by
    rw [messageLength, hlen]; omega
  refine ⟨?_, ?_, ?_, ?_⟩
  · intro j fuel hj hfuel
    have hpre := handle_log_loop_after argv j fuel 4 "" (by omega) hfuel hfit0
    have hsize := strlen_bufferAfter (argv.drop 4) j hj
    have hle := sum_strlen_take_le (argv.drop 4) j
    refine ⟨?_, hsize, ?_⟩
    · rw [h4, hpre]
      simp
    · rw [hsize]
      simp only [MESSAGE_SIZE]
      rw [hmsg] at hfit
      split_ifs <;> omega
  · intro fuel
    by_cases hf : ((argv.length : Int) - 4).toNat < fuel
    · rw [if_pos hf, h4, handle_log_loop_eq argv fuel 4 "" (by omega) (by omega),
        assemble_eq MESSAGE_SIZE (argv.drop 4) "" (by decide), if_pos hfit0]
      simp
    · rw [if_neg hf, h4]
      exact handle_log_loop_short argv fuel 4 "" (by omega) (by omega) hfit0
  · rw [strlen_intercalate, hmsg]
    congr 1
    omega
  · rw [strlen_intercalate]
    simp only [MESSAGE_SIZE]
    omega

theorem handle_log_buffer_bound_witness :
    handle_log_loop 7 ["azenith", "--log", "T", "1", "ab", "c", "def"] 4 4 "" =
      .ok "ab c def" ∧
    handle_log_loop 7 ["azenith", "--log", "T", "1", "ab", "c", "def"] 3 4 "" =
      .error .outOfFuel ∧
    strlen (bufferAfter ["ab", "c", "def"] 2) = 5 ∧
    strlen "ab c def" = 8 :=
  ⟨(handle_log_buffer_bound 7 ["azenith", "--log", "T", "1", "ab", "c", "def"] rfl
      (by decide) (by decide)).2.1 4,
    (handle_log_buffer_bound 7 ["azenith", "--log", "T", "1", "ab", "c", "def"] rfl
      (by decide) (by decide)).2.1 3,
    ((handle_log_buffer_bound 7 ["azenith", "--log", "T", "1", "ab", "c", "def"] rfl
      (by decide) (by decide)).1 2 2 (by decide) (by decide)).2.1,
    (handle_log_buffer_bound 7 ["azenith", "--log", "T", "1", "ab", "c", "def"] rfl
      (by decide) (by decide)).2.2.1⟩

end AZenith
